import Mathlib

/-!
# Verification of the teaching-load distribution engine

A shallow embedding, in Lean 4, of the core of the
`dissertation-teaching-load` repository: the data model
(`backend/core/models.py`), the metaheuristic solvers
(`backend/solvers/genetic_solver.py`, `backend/solvers/sa_solver.py`),
the exact-solver adapters (`backend/solvers/ortools_solver.py`,
`backend/solvers/pulp_solver.py`), the timetable generator
(`backend/core/timetable_generator.py`) and the fixture producer
(`backend/data/generator.py`).

Conventions used throughout:

* Python floats are modelled as `ℚ`; `float('inf')` values that can
  occur in `objective_value` / `total_deviation` are modelled by `none`
  in an `Option ℚ` field.
* Python dicts whose insertion order and contents are observable are
  modelled as association lists (`List (κ × ν)`) with `dictSet` /
  `dictGetD` mirroring `d[k] = v` and `d.get(k, v₀)`; dicts that are
  only ever read through `.get` with a default (the qualification
  matrix, the per-faculty preference map) are modelled as functions.
* The process-global `random` module is modelled by an environment
  `PyEnv` of streams: each call to `random.random()` /
  `random.choice` / `random.randint` consumes one position of a
  stream, addressed by a counter that the embedded code threads
  exactly in the source's call order.  Wall-clock time-limit tests at
  loop heads are modelled by a stream of booleans indexed by the loop
  iteration.  Quantifying over all environments covers every possible
  behaviour of the real RNG and clock.
* Code that raises is modelled with `Except PyError`.
-/

/-- Python exceptions observable in the embedded fragment. -/
inductive PyError where
  | attributeError
  | valueError
  deriving DecidableEq, Repr

section PyDict

variable {κ : Type _} {ν : Type _} [DecidableEq κ]

/-- `d[k] = v` on a Python dict: replace the value at the first
occurrence of `k`, else append `(k, v)` (insertion order preserved). -/
def dictSet : List (κ × ν) → κ → ν → List (κ × ν)
  | [], k, v => [(k, v)]
  | (k', v') :: rest, k, v =>
      if k' = k then (k', v) :: rest else (k', v') :: dictSet rest k v

/-- `d.get(k, v₀)` on a Python dict. -/
def dictGetD : List (κ × ν) → κ → ν → ν
  | [], _, v₀ => v₀
  | (k', v') :: rest, k, v₀ => if k' = k then v' else dictGetD rest k v₀

/-- A dict literal / comprehension `{k: v for (k, v) in pairs}`. -/
def dictOf (pairs : List (κ × ν)) : List (κ × ν) :=
  pairs.foldl (fun d p => dictSet d p.1 p.2) []

theorem dictGetD_dictSet_self (d : List (κ × ν)) (k : κ) (v v₀ : ν) :
    dictGetD (dictSet d k v) k v₀ = v := by
  induction d with
  | nil => simp [dictSet, dictGetD]
  | cons p rest ih =>
      obtain ⟨k', v'⟩ := p
      by_cases h : k' = k <;> simp [dictSet, dictGetD, h, ih]

theorem dictGetD_dictSet_ne (d : List (κ × ν)) {k k' : κ} (h : k' ≠ k)
    (v v₀ : ν) : dictGetD (dictSet d k v) k' v₀ = dictGetD d k' v₀ := by
  have h' : k ≠ k' := fun hh => h hh.symm
  induction d with
  | nil => simp [dictSet, dictGetD, h']
  | cons p rest ih =>
      obtain ⟨k₁, v₁⟩ := p
      by_cases h1 : k₁ = k
      · subst h1
        simp [dictSet, dictGetD, h']
      · simp [dictSet, dictGetD, h1, ih]

/-- All values of a dict built by zero-initialisation are the initial value. -/
theorem dictGetD_allZero {d : List (κ × ν)} (v₀ : ν)
    (h : ∀ p ∈ d, p.2 = v₀) (k : κ) : dictGetD d k v₀ = v₀ := by
  induction d with
  | nil => rfl
  | cons p rest ih =>
      obtain ⟨k', v'⟩ := p
      have hv : v' = v₀ := h (k', v') (List.mem_cons_self _ _)
      by_cases hk : k' = k
      · simp [dictGetD, hk, hv]
      · simpa [dictGetD, hk] using ih (fun q hq => h q (List.mem_cons_of_mem _ hq))

theorem dictSet_const_values {d : List (κ × ν)} {v₀ : ν}
    (hd : ∀ p ∈ d, p.2 = v₀) (k : κ) : ∀ p ∈ dictSet d k v₀, p.2 = v₀ := by
  induction d with
  | nil =>
      intro p hp
      simp only [dictSet, List.mem_singleton] at hp
      simp [hp]
  | cons p₀ rest ih =>
      obtain ⟨k₀, w₀⟩ := p₀
      intro p hp
      by_cases hk : k₀ = k
      · simp only [dictSet, if_pos hk, List.mem_cons] at hp
        rcases hp with h | h
        · simp [h]
        · exact hd p (List.mem_cons_of_mem _ h)
      · simp only [dictSet, if_neg hk, List.mem_cons] at hp
        rcases hp with h | h
        · rw [h]
          exact hd (k₀, w₀) (List.mem_cons_self _ _)
        · exact ih (fun q hq => hd q (List.mem_cons_of_mem _ hq)) p h

theorem dictOf_values_const (keys : List κ) (v₀ : ν) :
    ∀ p ∈ dictOf (keys.map (fun k => (k, v₀))), p.2 = v₀ := by
  have main : ∀ (ks : List κ) (d : List (κ × ν)), (∀ p ∈ d, p.2 = v₀) →
      ∀ p ∈ ks.foldl (fun d k => dictSet d k v₀) d, p.2 = v₀ := by
    intro ks
    induction ks with
    | nil => intro d hd; simpa using hd
    | cons k rest ih =>
        intro d hd
        simpa using ih (dictSet d k v₀) (dictSet_const_values hd k)
  have heq : dictOf (keys.map (fun k => (k, v₀)))
      = keys.foldl (fun d k => dictSet d k v₀) [] := by
    simp [dictOf, List.foldl_map]
  rw [heq]
  exact main keys [] (by intro p hp; cases hp)

end PyDict

section DictSum

variable {κ : Type _} [DecidableEq κ]

/-- Sum of the values a dict holds at a given list of keys. -/
def dictSumKeys (d : List (κ × ℚ)) (keys : List κ) : ℚ :=
  (keys.map (fun k => dictGetD d k 0)).sum

theorem dictSumKeys_update (d : List (κ × ℚ)) {keys : List κ} {k₀ : κ}
    (hmem : k₀ ∈ keys) (hnd : keys.Nodup) (v : ℚ) :
    dictSumKeys (dictSet d k₀ (dictGetD d k₀ 0 + v)) keys
      = dictSumKeys d keys + v := by
  induction keys with
  | nil => cases hmem
  | cons k rest ih =>
      rcases List.mem_cons.mp hmem with h | h
      · subst h
        have hk : ∀ x ∈ rest, x ≠ k₀ := fun x hx hxk => by
          exact (List.nodup_cons.mp hnd).1 (hxk ▸ hx)
        have : (rest.map (fun x => dictGetD (dictSet d k₀ (dictGetD d k₀ 0 + v)) x 0))
            = rest.map (fun x => dictGetD d x 0) := by
          refine List.map_congr_left ?_
          intro x hx
          exact dictGetD_dictSet_ne d (hk x hx) _ _
        simp [dictSumKeys, dictGetD_dictSet_self, this]
        ring
      · have hne : k ≠ k₀ := by
          intro hkk
          exact (List.nodup_cons.mp hnd).1 (hkk ▸ h)
        have := ih h (List.nodup_cons.mp hnd).2
        simp only [dictSumKeys, List.map_cons, List.sum_cons] at this ⊢
        rw [dictGetD_dictSet_ne d hne, this]
        ring

theorem dictSumKeys_zeroInit (keys : List κ) :
    dictSumKeys (dictOf (keys.map (fun k => (k, (0 : ℚ))))) keys = 0 := by
  have h := dictOf_values_const (ν := ℚ) keys 0
  unfold dictSumKeys
  have : ∀ k ∈ keys,
      dictGetD (dictOf (keys.map (fun k => (k, (0 : ℚ))))) k 0 = 0 := by
    intro k _
    exact dictGetD_allZero 0 h k
  rw [List.map_congr_left this]
  simp

end DictSum

/-! ## Data model (`backend/core/models.py`)

`FacultyRank` in the source gives `SENIOR_LECTURER` and `SENIOR_TEACHER`
the same string value `"Аға оқытушы"`; under Python's `Enum` aliasing
rules `SENIOR_TEACHER` is therefore an *alias* of `SENIOR_LECTURER`,
which we model by a definition rather than a constructor. -/

inductive FacultyRank where
  | PROFESSOR
  | ASSOCIATE_PROFESSOR
  | ASSISTANT_PROFESSOR
  | SENIOR_LECTURER
  | TEACHER
  | ADVISOR
  | TEACHER_ENGLISH
  | DEAN
  | ADMIN
  deriving DecidableEq, Repr, Inhabited

/-- Alias member: same `"Аға оқытушы"` value as `SENIOR_LECTURER`. -/
def FacultyRank.SENIOR_TEACHER : FacultyRank := FacultyRank.SENIOR_LECTURER

/-- `ActivityType` as defined in `models.py` — exactly four members. -/
inductive ActivityType where
  | LECTURE
  | PRACTICAL
  | LAB
  | SEMINAR
  deriving DecidableEq, Repr, Inhabited

/-- Python attribute access `ActivityType.<name>`: `none` models the
`AttributeError` raised for a missing enum member. -/
def activityTypeMember (name : String) : Option ActivityType :=
  if name = "LECTURE" then some .LECTURE
  else if name = "PRACTICAL" then some .PRACTICAL
  else if name = "LAB" then some .LAB
  else if name = "SEMINAR" then some .SEMINAR
  else none

/-- `ActivityType.<name>` as an expression: raises `AttributeError`
when the member does not exist. -/
def attrActivityType (name : String) : Except PyError ActivityType :=
  match activityTypeMember name with
  | some t => .ok t
  | none => .error .attributeError

inductive DayOfWeek where
  | MONDAY | TUESDAY | WEDNESDAY | THURSDAY | FRIDAY
  deriving DecidableEq, Repr, Inhabited

inductive RoomType where
  | LECTURE_HALL | CLASSROOM | COMPUTER_LAB | LABORATORY
  deriving DecidableEq, Repr, Inhabited

structure TimeSlot where
  id : ℕ
  name : String
  start_time : String
  end_time : String
  deriving DecidableEq, Repr

structure Room where
  id : String
  name : String
  room_type : RoomType
  capacity : ℕ
  building : String := "Бас корпус"
  deriving DecidableEq, Repr

/-- `Faculty` from `models.py`.  `preferences` models the Python dict
through its only read pattern `preferences.get(activity_id, 0)`;
`weight` is the value set by `__post_init__` from the rank table. -/
structure Faculty where
  id : ℕ
  name : String
  rank : FacultyRank
  target_load : ℚ
  max_load : ℚ
  preferences : String → ℤ
  qualified_courses : List String
  weight : ℚ

instance : Inhabited Faculty :=
  ⟨{ id := 0, name := "", rank := .TEACHER, target_load := 0, max_load := 0,
     preferences := fun _ => 0, qualified_courses := [], weight := 1 }⟩

/-- `rank_weights` from `Faculty.__post_init__`, built with dict
semantics: the alias key `SENIOR_TEACHER = SENIOR_LECTURER` makes the
later entry `1.1` overwrite the earlier `1.2`. -/
def rankWeights : List (FacultyRank × ℚ) :=
  dictOf [(.PROFESSOR, 3/2), (.ASSOCIATE_PROFESSOR, 7/5),
          (.ASSISTANT_PROFESSOR, 13/10), (.SENIOR_LECTURER, 6/5),
          (FacultyRank.SENIOR_TEACHER, 11/10), (.TEACHER, 1),
          (.ADVISOR, 4/5), (.TEACHER_ENGLISH, 11/10), (.DEAN, 3/2),
          (.ADMIN, 4/5)]

/-- `rank_weights.get(self.rank, 1.0)` in `__post_init__`. -/
def facultyWeightOf (rank : FacultyRank) : ℚ :=
  dictGetD rankWeights rank 1

structure CourseActivity where
  id : String
  course_id : String
  course_name : String
  activity_type : ActivityType
  section_number : ℕ
  hours : ℚ
  student_count : ℕ
  required_rank : Option FacultyRank
  deriving DecidableEq, Repr

instance : Inhabited CourseActivity :=
  ⟨{ id := "", course_id := "", course_name := "", activity_type := .LECTURE,
     section_number := 0, hours := 0, student_count := 0, required_rank := none }⟩

structure Assignment where
  faculty_id : ℕ
  activity_id : String
  preference_score : ℚ
  deriving DecidableEq, Repr

structure ScheduledActivity where
  activity_id : String
  faculty_id : ℕ
  day : DayOfWeek
  time_slot : TimeSlot
  room_id : String
  course_name : String
  activity_type : ActivityType
  hours : ℚ
  deriving DecidableEq, Repr

structure Timetable where
  scheduled_activities : List ScheduledActivity
  rooms : List Room
  deriving DecidableEq, Repr

/-- `OptimizationResult` from `models.py`.  `objective_value` and
`total_deviation` are `none` when the source stores `float('inf')`;
`computation_time` (wall clock) is not modelled. -/
structure OptimizationResult where
  assignments : List Assignment
  objective_value : Option ℚ
  total_deviation : Option ℚ
  solver_name : String
  solver_status : String
  faculty_loads : List (ℕ × ℚ)
  unassigned_activities : List String
  is_feasible : Bool
  gap : Option ℚ
  deriving DecidableEq, Repr

/-- `ProblemInstance`.  The qualification matrix is modelled through
its only read pattern `qualification_matrix.get((f.id, a.id), False)`. -/
structure ProblemInstance where
  faculty : List Faculty
  activities : List CourseActivity
  qualification_matrix : ℕ → String → Bool
  name : String

/-! ## The process-global `random` module and the wall clock -/

/-- One environment = one possible behaviour of the process-global
`random` module plus the wall clock.  `nats` drives `random.choice`
and `random.randint` (reduced modulo the range size), `floats` is the
stream of `random.random()` values, `coins` abstracts comparisons of
`random.random()` against non-rational thresholds (`exp(-ΔE/T)` in the
SA solver), and `timeouts i` is the result of the `time.time() -
start_time > time_limit` test at the head of loop iteration `i`. -/
structure PyEnv where
  nats : ℕ → ℕ
  floats : ℕ → ℚ
  coins : ℕ → Bool
  timeouts : ℕ → Bool

/-- `random.choice(l)`: one draw from `nats`.  (Total: on an empty
list — where CPython raises `IndexError` — it returns the default.) -/
def pyChoice {α : Type _} [Inhabited α] (env : PyEnv) (k : ℕ) (l : List α) :
    α × ℕ :=
  (l.getD (env.nats k % l.length) default, k + 1)

/-- `random.randint(a, b)`: one draw from `nats`. -/
def pyRandint (env : PyEnv) (k : ℕ) (a b : ℕ) : ℕ × ℕ :=
  (a + env.nats k % (b + 1 - a), k + 1)

/-- `random.uniform(a, b)`: one draw from `floats`. -/
def pyUniform (env : PyEnv) (k : ℕ) (a b : ℚ) : ℚ × ℕ :=
  (a + (b - a) * env.floats k, k + 1)

/-- Python `int(q)`: truncation toward zero. -/
def pyInt (q : ℚ) : ℤ :=
  if q < 0 then -(Int.floor (-q)) else Int.floor q

/-- Python `round(q, 1)`: round half to even at one decimal. -/
def pyRound1 (q : ℚ) : ℚ :=
  let s := q * 10
  let f := Int.floor s
  let r : ℤ :=
    if s - f < 1/2 then f
    else if s - f > 1/2 then f + 1
    else if f % 2 = 0 then f else f + 1
  (r : ℚ) / 10

/-! ## Metaheuristic preprocessing

Shared between `GeneticSolver.solve` (genetic_solver.py lines 54-79)
and `SimulatedAnnealingSolver.solve` (sa_solver.py lines 52-75), where
the code is textually identical. -/

/-- `faculty_map = {f.id: i for i, f in enumerate(instance.faculty)}`. -/
def facultyMap (faculty : List Faculty) : List (ℕ × ℕ) :=
  dictOf (faculty.enum.map (fun p => (p.2.id, p.1)))

/-- `faculty_ids = [f.id for f in instance.faculty]`. -/
def facultyIds (inst : ProblemInstance) : List ℕ :=
  inst.faculty.map (·.id)

/-- The per-activity qualified list: `[faculty_map[f.id] for f in
instance.faculty if qualification_matrix.get((f.id, activity.id), False)]`. -/
def activityQualified (inst : ProblemInstance) (a : CourseActivity) : List ℕ :=
  inst.faculty.foldl
    (fun acc f =>
      if inst.qualification_matrix f.id a.id then
        acc ++ [dictGetD (facultyMap inst.faculty) f.id 0]
      else acc) []

/-- `activity_options` indexed by activity position. -/
def activityOptions (inst : ProblemInstance) : List (List ℕ) :=
  inst.activities.map (activityQualified inst)

/-- The preprocessing loop returns early on the *first* activity whose
qualified list is empty. -/
def firstUncoverable (inst : ProblemInstance) : Option CourseActivity :=
  inst.activities.find? (fun a => (activityQualified inst a).isEmpty)

/-- The `OptimizationResult` returned by the early-INFEASIBLE branch of
both metaheuristic solvers (genetic_solver.py lines 66-77, sa_solver.py
lines 63-74). -/
def uncoverableResult (solverName : String) (a : CourseActivity) :
    OptimizationResult :=
  { assignments := [], objective_value := none, total_deviation := none,
    solver_name := solverName, solver_status := "INFEASIBLE",
    faculty_loads := [], unassigned_activities := [a.id],
    is_feasible := false, gap := none }

/-! ## Chromosome evaluation -/

/-- The load/preference accumulation loop shared by
`_calculate_fitness` and `_calculate_energy`:
`loads = {fid: 0.0}`; then for each gene, `loads[faculty_id] += hours`
and `total_preference += faculty.preferences.get(activity.id, 0)`. -/
def chromLoadsPref (chrom : List ℕ) (inst : ProblemInstance)
    (faculty_ids : List ℕ) : List (ℕ × ℚ) × ℤ :=
  (chrom.zip inst.activities).foldl
    (fun (st : List (ℕ × ℚ) × ℤ) (p : ℕ × CourseActivity) =>
      (dictSet st.1 (faculty_ids.getD p.1 0)
        (dictGetD st.1 (faculty_ids.getD p.1 0) 0 + p.2.hours),
       st.2 + (inst.faculty.getD p.1 default).preferences p.2.id))
    (dictOf (faculty_ids.map (fun fid => (fid, (0 : ℚ)))), 0)

/-- The deviation/penalty loop shared by both evaluators:
`deviation = abs(load - target)`, weighted; `penalty += (load -
max_load) * 100` when `load > max_load`. -/
def chromDevPenalty (loads : List (ℕ × ℚ)) (faculty : List Faculty) : ℚ × ℚ :=
  faculty.foldl
    (fun (st : ℚ × ℚ) f =>
      (st.1 + |dictGetD loads f.id 0 - f.target_load| * f.weight,
       if dictGetD loads f.id 0 > f.max_load then
         st.2 + (dictGetD loads f.id 0 - f.max_load) * 100
       else st.2))
    (0, 0)

/-- `GeneticSolver._calculate_fitness` (genetic_solver.py lines 188-221). -/
def calculateFitness (chrom : List ℕ) (inst : ProblemInstance)
    (faculty_ids : List ℕ) : ℚ :=
  let lp := chromLoadsPref chrom inst faculty_ids
  let dp := chromDevPenalty lp.1 inst.faculty
  dp.1 + dp.2 - (lp.2 : ℚ) * (1/2)

/-- `SimulatedAnnealingSolver._calculate_energy` (sa_solver.py lines
174-206) — textually identical to `_calculate_fitness`. -/
def calculateEnergy (chrom : List ℕ) (inst : ProblemInstance)
    (faculty_ids : List ℕ) : ℚ :=
  let lp := chromLoadsPref chrom inst faculty_ids
  let dp := chromDevPenalty lp.1 inst.faculty
  dp.1 + dp.2 - (lp.2 : ℚ) * (1/2)

/-! ## GA operators (genetic_solver.py lines 174-245) -/

/-- One chromosome of `_initialize_population` / SA's
`_generate_random_solution`: one `random.choice` per activity. -/
def initChrom (env : PyEnv) (optionsList : List (List ℕ)) (k : ℕ) :
    List ℕ × ℕ :=
  optionsList.foldl
    (fun (st : List ℕ × ℕ) opts =>
      let c := pyChoice env st.2 opts
      (st.1 ++ [c.1], c.2))
    ([], k)

/-- `_initialize_population`. -/
def initPopulation (populationSize : ℕ) (env : PyEnv)
    (optionsList : List (List ℕ)) (k : ℕ) : List (List ℕ) × ℕ :=
  (List.range populationSize).foldl
    (fun (st : List (List ℕ) × ℕ) _ =>
      let c := initChrom env optionsList st.2
      (st.1 ++ [c.1], c.2))
    ([], k)

/-- `_tournament_selection` with the default tournament size `k=3`:
three `random.randint(0, len(population)-1)` draws, keeping the index
with strictly smaller fitness. -/
def tournamentSelection (env : PyEnv) (population : List (List ℕ))
    (fitness : List ℚ) (k : ℕ) : List ℕ × ℕ :=
  let n := population.length
  let i₀ := (pyRandint env k 0 (n - 1)).1
  let step := fun (sel : ℕ) (t : ℕ) =>
    let ix := (pyRandint env t 0 (n - 1)).1
    if fitness.getD ix 0 < fitness.getD sel 0 then ix else sel
  let s₁ := step i₀ (k + 1)
  let s₂ := step s₁ (k + 2)
  (population.getD s₂ [], k + 3)

/-- `_crossover`: uniform crossover, one `random.random()` per gene of
`parent1`. -/
def crossoverChrom (env : PyEnv) (p1 p2 : List ℕ) (k : ℕ) :
    List ℕ × ℕ :=
  (p1.enum.map (fun g =>
     if env.floats (k + g.1) < 1/2 then g.2 else p2.getD g.1 0),
   k + p1.length)

/-- `_mutate` (and SA's `_mutate`, textually identical): one
`random.randint(0, len(chromosome)-1)` then one `random.choice` from
that position's qualified list. -/
def mutateChrom (env : PyEnv) (chrom : List ℕ)
    (optionsList : List (List ℕ)) (k : ℕ) : List ℕ × ℕ :=
  let r := pyRandint env k 0 (chrom.length - 1)
  let c := pyChoice env r.2 (optionsList.getD r.1 [])
  (chrom.set r.1 c.1, c.2)

/-- `np.argsort(fitness_scores)`: a permutation of the index range
ordered by ascending fitness.  (NumPy's default quicksort is not
stable; any fitness-ascending permutation is a faithful model, and the
properties proved below depend only on it being a permutation of the
range.) -/
def argsort (l : List ℚ) : List ℕ :=
  (List.range l.length).mergeSort (fun i j => l.getD i 0 ≤ l.getD j 0)

/-- One child of the inner `while len(new_population) <
self.population_size` loop (genetic_solver.py lines 110-124). -/
def gaChild (env : PyEnv) (crossoverRate mutationRate : ℚ)
    (population : List (List ℕ)) (fitness : List ℚ)
    (optionsList : List (List ℕ)) (k : ℕ) : List ℕ × ℕ :=
  let t1 := tournamentSelection env population fitness k
  let t2 := tournamentSelection env population fitness t1.2
  let cx :=
    if env.floats t2.2 < crossoverRate then
      crossoverChrom env t1.1 t2.1 (t2.2 + 1)
    else (t1.1, t2.2 + 1)
  if env.floats cx.2 < mutationRate then
    mutateChrom env cx.1 optionsList (cx.2 + 1)
  else (cx.1, cx.2 + 1)

/-- GA solver parameters, from `GeneticSolver.__init__` (lines 32-46).
There is no seed parameter: the solver draws from the process-global
`random` module (the `PyEnv`). -/
structure GAParams where
  population_size : ℕ := 100
  generations : ℕ := 500
  mutation_rate : ℚ := 1/10
  crossover_rate : ℚ := 4/5
  elite_size : ℕ := 5

/-- State threaded through the GA evolution loop. -/
structure GAState where
  population : List (List ℕ)
  best : Option (List ℕ × ℚ)
  k : ℕ
  stopped : Bool

/-- Fitness evaluation plus best-tracking (lines 92-99): iterates the
population in order, tracking strictly improving fitness. -/
def gaEvaluate (population : List (List ℕ)) (inst : ProblemInstance)
    (faculty_ids : List ℕ) (best : Option (List ℕ × ℚ)) :
    List ℚ × Option (List ℕ × ℚ) :=
  population.foldl
    (fun (st : List ℚ × Option (List ℕ × ℚ)) ind =>
      let fit := calculateFitness ind inst faculty_ids
      let best' :=
        match st.2 with
        | none => some (ind, fit)
        | some b => if fit < b.2 then some (ind, fit) else some b
      (st.1 ++ [fit], best'))
    ([], best)

/-- One generation of the evolution loop (lines 86-126): wall-clock
check at the head (`timeouts g`), fitness evaluation, elitism via
`np.argsort`, then children until the population is refilled. -/
def gaGeneration (p : GAParams) (inst : ProblemInstance)
    (faculty_ids : List ℕ) (optionsList : List (List ℕ)) (env : PyEnv)
    (st : GAState) (g : ℕ) : GAState :=
  if st.stopped then st
  else if env.timeouts g then { st with stopped := true }
  else
    let ev := gaEvaluate st.population inst faculty_ids st.best
    let fitness := ev.1
    let sorted := argsort fitness
    let elite := (List.range p.elite_size).map
      (fun i => st.population.getD (sorted.getD i 0) [])
    let children := (List.range (p.population_size - p.elite_size)).foldl
      (fun (acc : List (List ℕ) × ℕ) _ =>
        let c := gaChild env p.crossover_rate p.mutation_rate
          st.population fitness optionsList acc.2
        (acc.1 ++ [c.1], c.2))
      ([], st.k)
    { population := elite ++ children.1, best := ev.2,
      k := children.2, stopped := false }

/-- Final conversion of the best chromosome to an
`OptimizationResult`, translated from genetic_solver.py lines 128-172
and the textually identical block sa_solver.py lines 120-164
(parameterised by solver name and reported objective). -/
def finalizeResult (inst : ProblemInstance) (best : List ℕ)
    (objective : Option ℚ) (solverName : String) : OptimizationResult :=
  let fids := facultyIds inst
  let pairs := best.zip inst.activities
  let assignments := pairs.map (fun p =>
    { faculty_id := fids.getD p.1 0, activity_id := p.2.id,
      preference_score :=
        (((inst.faculty.getD p.1 default).preferences p.2.id : ℤ) : ℚ) })
  let loads := pairs.foldl
    (fun (d : List (ℕ × ℚ)) p =>
      let fid := fids.getD p.1 0
      dictSet d fid (dictGetD d fid 0 + p.2.hours))
    (dictOf (fids.map (fun fid => (fid, (0 : ℚ)))))
  let total_dev := (inst.faculty.map
    (fun f => |dictGetD loads f.id 0 - f.target_load|)).sum
  let is_f := inst.faculty.all (fun f =>
    decide (dictGetD loads f.id 0 ≤ f.max_load))
  { assignments := assignments, objective_value := objective,
    total_deviation := some total_dev, solver_name := solverName,
    solver_status := "COMPLETED", faculty_loads := loads,
    unassigned_activities := [], is_feasible := is_f, gap := none }

/-- `GeneticSolver.solve`.  Returns `none` where the Python raises
(`best_solution` still `None` because no generation ever ran its
evaluation loop). -/
def gaSolve (p : GAParams) (inst : ProblemInstance) (env : PyEnv) :
    Option OptimizationResult :=
  match firstUncoverable inst with
  | some a => some (uncoverableResult "Genetic Algorithm" a)
  | none =>
    let optionsList := activityOptions inst
    let fids := facultyIds inst
    let ip := initPopulation p.population_size env optionsList 0
    let final := (List.range p.generations).foldl
      (gaGeneration p inst fids optionsList env)
      { population := ip.1, best := none, k := ip.2, stopped := false }
    final.best.map (fun b => finalizeResult inst b.1 (some b.2) "Genetic Algorithm")

/-! ## Simulated annealing (`backend/solvers/sa_solver.py`) -/

/-- SA parameters, from `SimulatedAnnealingSolver.__init__` (lines
32-44).  As in the GA there is no seed parameter.  The temperature
parameters influence the run only through the number of cooling blocks
the `while temp > self.min_temp` loop executes (passed explicitly to
`saSolve` below) and through the Metropolis threshold
`exp(-ΔE/temp)` (whose comparison against `random.random()` is drawn
from `PyEnv.coins`). -/
structure SAParams where
  initial_temp : ℚ := 1000
  cooling_rate : ℚ := 19/20
  min_temp : ℚ := 1/10
  steps_per_temp : ℕ := 100

structure SAState where
  current : List ℕ
  currentE : ℚ
  best : List ℕ
  bestE : ℚ
  k : ℕ
  stopped : Bool

/-- One inner iteration (sa_solver.py lines 92-115): mutate a copy of
the current solution, then Metropolis acceptance.  `ΔE < 0` accepts and
possibly improves the incumbent; otherwise acceptance is decided by
`random.random() < exp(-ΔE/temp)`, modelled as a `coins` draw. -/
def saStep (env : PyEnv) (inst : ProblemInstance) (faculty_ids : List ℕ)
    (optionsList : List (List ℕ)) (st : SAState) : SAState :=
  let m := mutateChrom env st.current optionsList st.k
  let nE := calculateEnergy m.1 inst faculty_ids
  if nE - st.currentE < 0 then
    if nE < st.bestE then
      { current := m.1, currentE := nE, best := m.1, bestE := nE,
        k := m.2, stopped := false }
    else
      { st with current := m.1, currentE := nE, k := m.2 }
  else
    if env.coins m.2 then
      { st with current := m.1, currentE := nE, k := m.2 + 1 }
    else
      { st with k := m.2 + 1 }

/-- One cooling block (lines 87-118): wall-clock check at the head,
then `steps_per_temp` inner iterations.  Cooling itself only changes
`temp`, which the embedding accounts for in the block count. -/
def saBlock (p : SAParams) (inst : ProblemInstance) (faculty_ids : List ℕ)
    (optionsList : List (List ℕ)) (env : PyEnv) (st : SAState) (b : ℕ) :
    SAState :=
  if st.stopped then st
  else if env.timeouts b then { st with stopped := true }
  else (List.range p.steps_per_temp).foldl
    (fun s _ => saStep env inst faculty_ids optionsList s) st

/-- `SimulatedAnnealingSolver.solve`.  `blocks` is the number of
cooling blocks the `while temp > self.min_temp` loop would execute —
finite for the default geometric schedule; every concrete execution of
the Python loop corresponds to one value of `blocks`. -/
def saSolve (p : SAParams) (inst : ProblemInstance) (env : PyEnv)
    (blocks : ℕ) : OptimizationResult :=
  match firstUncoverable inst with
  | some a => uncoverableResult "Simulated Annealing" a
  | none =>
    let optionsList := activityOptions inst
    let fids := facultyIds inst
    let ic := initChrom env optionsList 0
    let e₀ := calculateEnergy ic.1 inst fids
    let final := (List.range blocks).foldl
      (saBlock p inst fids optionsList env)
      { current := ic.1, currentE := e₀, best := ic.1, bestE := e₀,
        k := ic.2, stopped := false }
    finalizeResult inst final.best (some final.bestE) "Simulated Annealing"

/-! ## OR-Tools CP-SAT adapter (`backend/solvers/ortools_solver.py`)

The CP-SAT backend itself is external; the embedding captures (i) the
model the adapter builds — variable domains, constraints, objective —
as a satisfaction predicate over valuations, and (ii) the adapter's
translation of a backend response into an `OptimizationResult`.
Theorems about the adapter take the backend response as a parameter;
soundness of the backend (a non-INFEASIBLE answer comes with a
satisfying valuation) is a hypothesis where needed. -/

/-- The keys of the decision-variable dict `x`, in construction order
(lines 21-27): qualified `(faculty_id, activity_id)` pairs. -/
def xKeys (inst : ProblemInstance) : List (ℕ × String) :=
  inst.faculty.flatMap (fun f =>
    inst.activities.filterMap (fun a =>
      if inst.qualification_matrix f.id a.id then some (f.id, a.id)
      else none))

/-- The membership test `(f.id, activity.id) in x`. -/
def hasXKey (inst : ProblemInstance) (fid : ℕ) (aid : String) : Bool :=
  decide ((fid, aid) ∈ xKeys inst)

/-- A valuation of all CP-SAT decision variables. -/
structure CpValuation where
  x : ℕ → String → Bool
  load : ℕ → ℤ
  dev : ℕ → ℤ
  devPos : ℕ → ℤ
  devNeg : ℕ → ℤ

/-- Satisfaction of the CP-SAT model built by `ORToolsSolver.solve`
(lines 19-110): variable domains, the cover constraints — added *only*
for activities whose qualified list is non-empty (lines 52-63: an
empty list prints a warning and `continue`s) — the load definitions,
the capacity constraints and the deviation splitting. -/
def ortoolsModelSat (inst : ProblemInstance) (v : CpValuation) : Prop :=
  (∀ f ∈ inst.faculty,
    0 ≤ v.load f.id ∧ v.load f.id ≤ pyInt (f.max_load * 10) ∧
    0 ≤ v.dev f.id ∧ v.dev f.id ≤ pyInt (f.max_load * 10) ∧
    0 ≤ v.devPos f.id ∧ v.devPos f.id ≤ pyInt (f.max_load * 10) ∧
    0 ≤ v.devNeg f.id ∧ v.devNeg f.id ≤ pyInt (f.max_load * 10)) ∧
  (∀ a ∈ inst.activities,
    (inst.faculty.filter (fun f => hasXKey inst f.id a.id)) ≠ [] →
      ((inst.faculty.filter (fun f => hasXKey inst f.id a.id)).map
        (fun f => if v.x f.id a.id then (1 : ℤ) else 0)).sum = 1) ∧
  (∀ f ∈ inst.faculty,
    (let terms := inst.activities.filterMap (fun a =>
       if hasXKey inst f.id a.id then
         some ((if v.x f.id a.id then (1 : ℤ) else 0) * pyInt (a.hours * 10))
       else none)
     if terms = [] then v.load f.id = 0 else v.load f.id = terms.sum)) ∧
  (∀ f ∈ inst.faculty, v.load f.id ≤ pyInt (f.max_load * 10)) ∧
  (∀ f ∈ inst.faculty,
    v.load f.id - pyInt (f.target_load * 10) = v.devPos f.id - v.devNeg f.id ∧
    v.dev f.id = v.devPos f.id + v.devNeg f.id)

/-- The activities that actually receive a cover constraint
(lines 52-63): those whose qualified-variable list is non-empty. -/
def ortoolsCoverTargets (inst : ProblemInstance) : List String :=
  inst.activities.filterMap (fun a =>
    if (inst.faculty.filter (fun f => hasXKey inst f.id a.id)).isEmpty then
      none
    else some a.id)

/-- The linear objective expression (lines 94-110): scaled weighted
deviations minus `x * pref * 10` for qualified pairs with positive
preference. -/
def ortoolsObjective (inst : ProblemInstance) (v : CpValuation) : ℤ :=
  (inst.faculty.map (fun f => pyInt (f.weight * 100) * v.dev f.id)).sum
  + (inst.faculty.map (fun f =>
      (inst.activities.map (fun a =>
        if hasXKey inst f.id a.id && decide (f.preferences a.id > 0) then
          -((if v.x f.id a.id then (1 : ℤ) else 0) * f.preferences a.id * 10)
        else 0)).sum)).sum

/-- Native CP-SAT termination statuses. -/
inductive CpStatus where
  | OPTIMAL | FEASIBLE | INFEASIBLE | MODEL_INVALID | UNKNOWN
  deriving DecidableEq, Repr

/-- `status_names.get(status, "ERROR")` in the failure branch
(lines 159-171). -/
def ortoolsStatusName (s : CpStatus) : String :=
  match s with
  | .INFEASIBLE => "INFEASIBLE"
  | .MODEL_INVALID => "MODEL_INVALID"
  | .UNKNOWN => "UNKNOWN"
  | _ => "ERROR"

/-- What `solver.Solve` hands back: a status, variable values and the
objective value. -/
structure CpResponse where
  status : CpStatus
  val : CpValuation
  objective : ℚ

/-- The result-extraction loop of the success branch (lines 120-137):
assignments and `actual_loads` from the backend valuation. -/
def ortoolsExtract (inst : ProblemInstance) (v : CpValuation) :
    List Assignment × List (ℕ × ℚ) :=
  inst.faculty.foldl
    (fun (st : List Assignment × List (ℕ × ℚ)) f =>
      let inner := inst.activities.foldl
        (fun (st2 : List Assignment × ℚ) a =>
          if hasXKey inst f.id a.id && v.x f.id a.id then
            (st2.1 ++ [{ faculty_id := f.id, activity_id := a.id,
                         preference_score := ((f.preferences a.id : ℤ) : ℚ) }],
             st2.2 + a.hours)
          else st2)
        (st.1, 0)
      (inner.1, dictSet st.2 f.id inner.2))
    ([], [])

/-- `ORToolsSolver.solve` after the backend call (lines 120-175). -/
def ortoolsSolve (inst : ProblemInstance) (resp : CpResponse) :
    OptimizationResult :=
  if resp.status = .OPTIMAL ∨ resp.status = .FEASIBLE then
    let ex := ortoolsExtract inst resp.val
    let total_dev := (inst.faculty.map
      (fun f => |dictGetD ex.2 f.id 0 - f.target_load|)).sum
    { assignments := ex.1, objective_value := some (resp.objective / 1000),
      total_deviation := some total_dev, solver_name := "OR-Tools CP-SAT",
      solver_status := if resp.status = .OPTIMAL then "OPTIMAL" else "FEASIBLE",
      faculty_loads := ex.2, unassigned_activities := [],
      is_feasible := true,
      gap := if resp.status = .OPTIMAL then none else some 0 }
  else
    { assignments := [], objective_value := none, total_deviation := none,
      solver_name := "OR-Tools CP-SAT",
      solver_status := ortoolsStatusName resp.status,
      faculty_loads := [],
      unassigned_activities := inst.activities.map (·.id),
      is_feasible := false, gap := none }

/-! ## PuLP adapter (`backend/solvers/pulp_solver.py`) -/

/-- Native PuLP `LpStatus` values. -/
inductive LpStatus where
  | Optimal | NotSolved | Infeasible | Unbounded | Undefined
  deriving DecidableEq, Repr

/-- `status_names.get(status, "ERROR")` in the failure branch
(lines 161-166); `Optimal` is absent from the dict, so it falls to the
default. -/
def pulpStatusName (s : LpStatus) : String :=
  match s with
  | .Infeasible => "INFEASIBLE"
  | .Unbounded => "UNBOUNDED"
  | .NotSolved => "NOT_SOLVED"
  | .Undefined => "UNDEFINED"
  | .Optimal => "ERROR"

/-- What the CBC/GLPK backend call leaves behind: a status, the
objective value (`None` when nothing was solved) and the values of the
binary variables. -/
structure LpResponse where
  status : LpStatus
  objective : Option ℚ
  x : ℕ → String → ℚ

/-- The LP objective built at lines 95-99: weighted deviations only —
no preference term appears anywhere in the PuLP model. -/
def pulpObjective (inst : ProblemInstance) (dev : ℕ → ℚ) : ℚ :=
  (inst.faculty.map (fun f => f.weight * dev f.id)).sum

/-- Modelled from the spec: the mandated exact-solver objective
`Σ_f weight(f) · d[f] · Wdev − Σ_{f,a} preferences(f, a) · x[f,a] ·
Wpref` with `Wdev = 100`, `Wpref = 10` (spec §4.2); present here only
to compare against the adapters' objectives. -/
def specExactObjective (inst : ProblemInstance) (dev : ℕ → ℚ)
    (x : ℕ → String → ℚ) : ℚ :=
  (inst.faculty.map (fun f => f.weight * dev f.id * 100)).sum
  - (inst.faculty.map (fun f =>
      (inst.activities.map (fun a =>
        ((f.preferences a.id : ℤ) : ℚ) * x f.id a.id * 10)).sum)).sum

/-- The result-extraction loop of the PuLP success branch
(lines 122-159): a variable counts as chosen when its value exceeds
`0.5`. -/
def pulpExtract (inst : ProblemInstance) (resp : LpResponse) :
    List Assignment × List (ℕ × ℚ) :=
  inst.faculty.foldl
    (fun (st : List Assignment × List (ℕ × ℚ)) f =>
      let inner := inst.activities.foldl
        (fun (st2 : List Assignment × ℚ) a =>
          if hasXKey inst f.id a.id && decide (resp.x f.id a.id > 1/2) then
            (st2.1 ++ [{ faculty_id := f.id, activity_id := a.id,
                         preference_score := ((f.preferences a.id : ℤ) : ℚ) }],
             st2.2 + a.hours)
          else st2)
        (st.1, 0)
      (inner.1, dictSet st.2 f.id inner.2))
    ([], [])

/-- `PuLPSolver.solve` after the backend call (lines 119-178). -/
def pulpSolveResult (inst : ProblemInstance) (resp : LpResponse) :
    OptimizationResult :=
  if (resp.status = .Optimal ∨ resp.status = .NotSolved)
      ∧ resp.objective.isSome then
    let ex := pulpExtract inst resp
    let total_dev := (inst.faculty.map
      (fun f => |dictGetD ex.2 f.id 0 - f.target_load|)).sum
    { assignments := ex.1, objective_value := resp.objective,
      total_deviation := some total_dev,
      solver_name := "PuLP (PULP_CBC_CMD)",
      solver_status := if resp.status = .Optimal then "OPTIMAL" else "FEASIBLE",
      faculty_loads := ex.2, unassigned_activities := [],
      is_feasible := true, gap := none }
  else
    { assignments := [], objective_value := none, total_deviation := none,
      solver_name := "PuLP (PULP_CBC_CMD)",
      solver_status := pulpStatusName resp.status,
      faculty_loads := [],
      unassigned_activities := inst.activities.map (·.id),
      is_feasible := false, gap := none }

/-! ## Timetable generation (`backend/core/timetable_generator.py`) -/

/-- The per-assignment body of `generate_timetable` (lines 100-149):
resolve the activity and the faculty (`continue` when either is
missing), then evaluate the supervision-type filter
`activity.activity_type in [ActivityType.BACHELOR_THESIS,
ActivityType.MASTER_THESIS, ActivityType.RESEARCH_NIRM]`.  Building
that list evaluates `ActivityType.BACHELOR_THESIS` first, so with the
four-member `ActivityType` of `models.py` the loop raises
`AttributeError` at the first resolvable assignment; the placement code
(lines 123-149, `_find_suitable_room` and the busy-set bookkeeping)
is unreachable and therefore not modelled further. -/
def ttLoop (inst : ProblemInstance) : List Assignment → Except PyError Unit
  | [] => .ok ()
  | asg :: rest =>
      match inst.activities.find? (fun a => decide (a.id = asg.activity_id)) with
      | none => ttLoop inst rest
      | some _activity =>
          match inst.faculty.find? (fun f => decide (f.id = asg.faculty_id)) with
          | none => ttLoop inst rest
          | some _faculty =>
              match attrActivityType "BACHELOR_THESIS" with
              | .error e => .error e
              | .ok _ => ttLoop inst rest

/-- `TimetableGenerator.generate_timetable` with an explicit room
catalog (the `rooms is None` branch merely generates one first).  When
the loop never reaches a resolvable assignment it returns a timetable
holding the rooms and no scheduled activities, exactly as the source
does after `continue`-ing past every assignment. -/
def generateTimetable (inst : ProblemInstance) (result : OptimizationResult)
    (rooms : List Room) : Except PyError Timetable :=
  match ttLoop inst result.assignments with
  | .error e => .error e
  | .ok _ => .ok { scheduled_activities := [], rooms := rooms }

/-! ## Fixture producer (`backend/data/generator.py`) -/

def FIRST_NAMES : List String :=
  ["Айгуль", "Асель", "Жанар", "Дина", "Сауле",
   "Ерлан", "Арман", "Нурлан", "Бауыржан", "Марат",
   "Алия", "Камила", "Назым", "Асия", "Жания"]

def LAST_NAMES : List String :=
  ["Абдуллаев", "Смагулов", "Оспанова", "Жумабаев", "Сейтова",
   "Нурмуханов", "Алимбетов", "Касымова", "Ерланов", "Жаксылыков"]

def COURSE_PREFIXES : List String := ["CS", "MATH", "PHYS", "ENG", "BUS"]

/-- `COURSE_NAMES[dept]` — the dict is only read at known keys. -/
def courseNames (dept : String) : List String :=
  if dept = "CS" then
    ["Бағдарламалау I", "Деректер құрылымы", "Алгоритмдер",
     "Дерекқор жүйелері", "Веб-әзірлеу"]
  else if dept = "MATH" then
    ["Математикалық талдау", "Сызықтық алгебра", "Дискретті математика",
     "Статистика", "Ықтималдықтар теориясы"]
  else if dept = "PHYS" then
    ["Физика I", "Физика II", "Термодинамика", "Кванттық механика", "Оптика"]
  else if dept = "ENG" then
    ["Академиялық жазу", "Техникалық ағылшын тілі", "Әдебиет",
     "Коммуникация", "Презентация дағдылары"]
  else
    ["Микроэкономика", "Маркетинг", "Бухгалтерлік есеп", "Менеджмент", "Қаржы"]

/-- `generate_faculty_name`: two `random.choice` draws. -/
def generateFacultyName (env : PyEnv) (k : ℕ) : String × ℕ :=
  let f := pyChoice env k FIRST_NAMES
  let l := pyChoice env f.2 LAST_NAMES
  (f.1 ++ " " ++ l.1, l.2)

/-- `rank_distribution` (generator.py lines 43-52); the
`SENIOR_TEACHER` entry is the alias of `SENIOR_LECTURER`. -/
def rankDistribution : List (FacultyRank × ℚ) :=
  [(.PROFESSOR, 1/20), (.ASSOCIATE_PROFESSOR, 1/10),
   (.ASSISTANT_PROFESSOR, 3/20), (.SENIOR_LECTURER, 1/5),
   (FacultyRank.SENIOR_TEACHER, 1/5), (.TEACHER, 1/5),
   (.ADVISOR, 1/20), (.TEACHER_ENGLISH, 1/20)]

/-- `special_roles` (lines 54-58). -/
def specialRoles (count : ℕ) : List FacultyRank :=
  (if count > 10 then [FacultyRank.DEAN] else [])
    ++ (if count > 15 then [FacultyRank.ADMIN] else [])

/-- `load_constraints` (lines 60-71), with dict semantics (the two
"Аға оқытушы" keys coincide and carry the same value 600). -/
def loadConstraints : List (FacultyRank × ℚ) :=
  dictOf [(.PROFESSOR, 500), (.ASSOCIATE_PROFESSOR, 550),
          (.ASSISTANT_PROFESSOR, 550), (.SENIOR_LECTURER, 600),
          (FacultyRank.SENIOR_TEACHER, 600), (.TEACHER, 650),
          (.ADVISOR, 250), (.TEACHER_ENGLISH, 400), (.DEAN, 300),
          (.ADMIN, 300)]

/-- The cumulative-probability selection loop (lines 77-84): default
`TEACHER`, first bucket containing `r` wins. -/
def selectRank : List (FacultyRank × ℚ) → ℚ → ℚ → FacultyRank
  | [], _, _ => .TEACHER
  | (rank, prob) :: rest, cum, r =>
      if r ≤ cum + prob then rank else selectRank rest (cum + prob) r

/-- `generate_faculty` (lines 40-112).  Draw order per member: rank
selection (when not a special role), load uniforms, then the two name
draws made while evaluating the `Faculty(...)` constructor call. -/
def generateFaculty (env : PyEnv) (k₀ : ℕ) (count : ℕ) :
    List Faculty × ℕ :=
  (List.range count).foldl
    (fun (st : List Faculty × ℕ) i =>
      let roles := specialRoles count
      let sel : FacultyRank × ℕ :=
        if i < roles.length then (roles.getD i .TEACHER, st.2)
        else (selectRank rankDistribution 0 (env.floats st.2), st.2 + 1)
      let base := dictGetD loadConstraints sel.1 0
      let tm : ℚ × ℚ × ℕ :=
        if sel.1 = .ADMIN then
          let u := pyUniform env sel.2 100 250
          (u.1, 300, u.2)
        else if sel.1 = .DEAN then
          let u := pyUniform env sel.2 200 340
          (u.1, min 340 (680 / 2), u.2)
        else
          let u₁ := pyUniform env sel.2 0 30
          let target := base + u₁.1
          let u₂ := pyUniform env u₁.2 (11/10) (23/20)
          (target, min (target * u₂.1) 680, u₂.2)
      let nm := generateFacultyName env tm.2.2
      (st.1 ++ [{ id := i + 1, name := nm.1, rank := sel.1,
                  target_load := pyRound1 tm.1,
                  max_load := pyRound1 tm.2.1,
                  preferences := fun _ => 0, qualified_courses := [],
                  weight := facultyWeightOf sel.1 }], nm.2))
    ([], k₀)

/-- `generate_courses` (lines 114-159). -/
def generateCourses (env : PyEnv) (k₀ : ℕ)
    (count lecturesPer practicalsPer : ℕ) : List CourseActivity × ℕ :=
  (List.range count).foldl
    (fun (st : List CourseActivity × ℕ) cn =>
      let d := pyChoice env st.2 COURSE_PREFIXES
      let courseId := d.1 ++ toString (100 + (cn + 1))
      let nm := pyChoice env d.2 (courseNames d.1)
      let lec := (List.range lecturesPer).foldl
        (fun (st2 : List CourseActivity × ℕ) s =>
          let h := pyChoice env st2.2 [(30 : ℚ), 45, 60]
          let stu := pyRandint env h.2 80 200
          (st2.1 ++ [{ id := courseId ++ "_L" ++ toString (s + 1),
                       course_id := courseId, course_name := nm.1,
                       activity_type := .LECTURE, section_number := s + 1,
                       hours := h.1, student_count := stu.1,
                       required_rank := some .SENIOR_LECTURER }], stu.2))
        (st.1, nm.2)
      (List.range practicalsPer).foldl
        (fun (st2 : List CourseActivity × ℕ) s =>
          let h := pyChoice env st2.2 [(15 : ℚ), 30, 45]
          let stu := pyRandint env h.2 20 40
          (st2.1 ++ [{ id := courseId ++ "_P" ++ toString (s + 1),
                       course_id := courseId, course_name := nm.1,
                       activity_type := .PRACTICAL, section_number := s + 1,
                       hours := h.1, student_count := stu.1,
                       required_rank := some .TEACHER }], stu.2))
        lec)
    ([], k₀)

/-- The bachelor-thesis loop of `generate_supervision_activities`
(lines 206-218): per student one supervisor draw, then the
`CourseActivity(..., activity_type=ActivityType.BACHELOR_THESIS, ...)`
constructor call, whose `activity_type` argument raises
`AttributeError` under the four-member `ActivityType`. -/
def superviseBachelors (env : PyEnv) (sups : List Faculty) (b : ℕ)
    (st : List CourseActivity × ℕ) : Except PyError (List CourseActivity × ℕ) :=
  (List.range b).foldlM
    (fun (st : List CourseActivity × ℕ) i =>
      let s := pyChoice env st.2 sups
      match attrActivityType "BACHELOR_THESIS" with
      | .error e => .error e
      | .ok ty =>
          .ok (st.1 ++ [{ id := "THESIS_B" ++ toString (i + 1),
                          course_id := "THESIS_BACHELOR",
                          course_name := "Бакалавр дипломдық жұмыс #" ++ toString (i + 1),
                          activity_type := ty, section_number := i + 1,
                          hours := 20, student_count := 1,
                          required_rank := some .SENIOR_LECTURER }], s.2))
    st

/-- The master-thesis loop (lines 221-233), referencing
`ActivityType.MASTER_THESIS`. -/
def superviseMasters (env : PyEnv) (sups : List Faculty) (m : ℕ)
    (st : List CourseActivity × ℕ) : Except PyError (List CourseActivity × ℕ) :=
  (List.range m).foldlM
    (fun (st : List CourseActivity × ℕ) i =>
      let s := pyChoice env st.2 sups
      match attrActivityType "MASTER_THESIS" with
      | .error e => .error e
      | .ok ty =>
          .ok (st.1 ++ [{ id := "THESIS_M" ++ toString (i + 1),
                          course_id := "THESIS_MASTER",
                          course_name := "Магистр диссертация #" ++ toString (i + 1),
                          activity_type := ty, section_number := i + 1,
                          hours := 40, student_count := 1,
                          required_rank := some .ASSISTANT_PROFESSOR }], s.2))
    st

/-- The NIRM loop (lines 236-248), referencing
`ActivityType.RESEARCH_NIRM`; the `student_count` draw follows the
(raising) `activity_type` argument in evaluation order. -/
def superviseNirm (env : PyEnv) (sups : List Faculty) (n : ℕ)
    (st : List CourseActivity × ℕ) : Except PyError (List CourseActivity × ℕ) :=
  (List.range n).foldlM
    (fun (st : List CourseActivity × ℕ) i =>
      let s := pyChoice env st.2 sups
      match attrActivityType "RESEARCH_NIRM" with
      | .error e => .error e
      | .ok ty =>
          let stu := pyRandint env s.2 2 5
          .ok (st.1 ++ [{ id := "NIRM_" ++ toString (i + 1),
                          course_id := "NIRM_EIR",
                          course_name := "НИРМ/ЭИР жобасы #" ++ toString (i + 1),
                          activity_type := ty, section_number := i + 1,
                          hours := 25, student_count := stu.1,
                          required_rank := some .ASSISTANT_PROFESSOR }], stu.2))
    st

/-- `generate_supervision_activities` (lines 161-250). -/
def generateSupervisionActivities (env : PyEnv) (k₀ : ℕ)
    (faculty : List Faculty) (bachelors masters nirm : ℕ) :
    Except PyError (List CourseActivity × ℕ) :=
  let qualifiedSups := faculty.filter (fun f =>
    decide (f.rank ∈ [FacultyRank.PROFESSOR, .ASSOCIATE_PROFESSOR,
      .ASSISTANT_PROFESSOR, .SENIOR_LECTURER, FacultyRank.SENIOR_TEACHER]))
  let masterSups := faculty.filter (fun f =>
    decide (f.rank ∈ [FacultyRank.PROFESSOR, .ASSOCIATE_PROFESSOR,
      .ASSISTANT_PROFESSOR]))
  let qualifiedSups := if qualifiedSups.isEmpty then faculty.take 5
                       else qualifiedSups
  let masterSups := if masterSups.isEmpty then faculty.take 3 else masterSups
  match superviseBachelors env qualifiedSups bachelors ([], k₀) with
  | .error e => .error e
  | .ok st₁ =>
      match superviseMasters env masterSups masters st₁ with
      | .error e => .error e
      | .ok st₂ => superviseNirm env masterSups nirm st₂

/-- The keys of `courses_activities` in insertion order (generator.py
lines 260-266): distinct course ids. -/
def dedupCourseIds (activities : List CourseActivity) : List String :=
  activities.foldl
    (fun acc a => if a.course_id ∈ acc then acc else acc ++ [a.course_id]) []

/-- `rank_hierarchy` (lines 268-279).  The `SENIOR_TEACHER` entry is
the alias of `SENIOR_LECTURER`, so the list holds that member twice and
`.index` returns the first position (4) for both names. -/
def rankHierarchy : List FacultyRank :=
  [.ADMIN, .ADVISOR, .TEACHER, .TEACHER_ENGLISH, FacultyRank.SENIOR_TEACHER,
   .SENIOR_LECTURER, .ASSISTANT_PROFESSOR, .ASSOCIATE_PROFESSOR,
   .PROFESSOR, .DEAN]

/-- Python `list.index`: position of the first occurrence. -/
def listIndex {α : Type _} [DecidableEq α] : List α → α → Option ℕ
  | [], _ => none
  | y :: rest, x =>
      if y = x then some 0 else (listIndex rest x).map (· + 1)

/-- The qualification test of the matrix loop (lines 288-300); the
`try/except ValueError` branch maps a failed `.index` to `True`. -/
def isQualifiedFor (f : Faculty) (a : CourseActivity)
    (qualifiedCourses : List String) : Bool :=
  if a.course_id ∈ qualifiedCourses then
    match a.required_rank with
    | some rq =>
        match listIndex rankHierarchy f.rank, listIndex rankHierarchy rq with
        | some fi, some ri => decide (fi ≥ ri)
        | _, _ => true
    | none => true
  else false

/-- `random.sample(l, n)`: `n` removals without replacement, one
`nats` draw each (the CPython draw pattern is abstracted to one stream
position per selected element). -/
def pySample {α : Type _} [Inhabited α] (env : PyEnv) (k : ℕ) (l : List α)
    (n : ℕ) : List α × ℕ :=
  let st := (List.range n).foldl
    (fun (st : List α × List α × ℕ) _ =>
      let remaining := st.2.1
      let idx := env.nats st.2.2 % remaining.length
      (st.1 ++ [remaining.getD idx default], remaining.eraseIdx idx,
       st.2.2 + 1))
    ([], l, k)
  (st.1, st.2.2)

/-- A faculty member after the matrix loop granted it a preference for
one more activity (`f.preferences[activity.id] = random.randint(5, 10)`). -/
def addPreference (f : Faculty) (aid : String) (p : ℤ) : Faculty :=
  { f with preferences := fun aid' => if aid' = aid then p else f.preferences aid' }

/-- `generate_qualification_matrix` (lines 252-336), phase 1: per
faculty member, sample qualified courses, then fill the matrix row and
the preference dict.  Returns the matrix dict, the mutated faculty
list and the RNG counter. -/
def qualMatrixPhase1 (env : PyEnv) (k₀ : ℕ) (faculty : List Faculty)
    (activities : List CourseActivity) :
    List ((ℕ × String) × Bool) × List Faculty × ℕ :=
  let courses := dedupCourseIds activities
  faculty.foldl
    (fun (st : List ((ℕ × String) × Bool) × List Faculty × ℕ) f =>
      let numQ := max 2 (pyInt ((courses.length : ℚ) * (2/5))).toNat
      let smp := pySample env st.2.2 courses (min numQ courses.length)
      let f₁ := { f with qualified_courses := smp.1 }
      let inner := activities.foldl
        (fun (st2 : List ((ℕ × String) × Bool) × Faculty × ℕ) a =>
          let q := isQualifiedFor f a smp.1
          let m := dictSet st2.1 (f.id, a.id) q
          if q then
            let p := pyRandint env st2.2.2 5 10
            (m, addPreference st2.2.1 a.id (p.1 : ℤ), p.2)
          else (m, st2.2.1, st2.2.2))
        (st.1, f₁, smp.2)
      (inner.1, st.2.1 ++ [inner.2.1], inner.2.2))
    (([], [], k₀))

/-- Phase 2 of `generate_qualification_matrix` (lines 307-334): give
every activity that ended up with no qualified faculty one qualified
member (chosen among rank-compatible faculty, falling back to all).
The source mutates the chosen `Faculty` object in place; the embedding
rewrites the list entries with the chosen id. -/
def qualMatrixPhase2 (env : PyEnv)
    (st₀ : List ((ℕ × String) × Bool) × List Faculty × ℕ)
    (activities : List CourseActivity) :
    List ((ℕ × String) × Bool) × List Faculty × ℕ :=
  activities.foldl
    (fun (st : List ((ℕ × String) × Bool) × List Faculty × ℕ) a =>
      let hasQ := st.2.1.any (fun f => dictGetD st.1 (f.id, a.id) false)
      if hasQ then st
      else
        let potential :=
          match a.required_rank with
          | some rq =>
              let ri := (listIndex rankHierarchy rq).getD 0
              st.2.1.filter (fun f =>
                decide ((listIndex rankHierarchy f.rank).getD 0 ≥ ri))
          | none => st.2.1
        let potential := if potential.isEmpty then st.2.1 else potential
        let ch := pyChoice env st.2.2 potential
        let chosen :=
          if a.course_id ∈ ch.1.qualified_courses then ch.1
          else { ch.1 with qualified_courses :=
                   ch.1.qualified_courses ++ [a.course_id] }
        let p := pyRandint env ch.2 5 10
        let chosen := addPreference chosen a.id (p.1 : ℤ)
        (dictSet st.1 (ch.1.id, a.id) true,
         st.2.1.map (fun f => if f.id = ch.1.id then chosen else f),
         p.2))
    st₀

/-- `generate_qualification_matrix` with the default
`qualification_rate = 0.4`. -/
def generateQualificationMatrix (env : PyEnv) (k₀ : ℕ)
    (faculty : List Faculty) (activities : List CourseActivity) :
    List ((ℕ × String) × Bool) × List Faculty × ℕ :=
  qualMatrixPhase2 env (qualMatrixPhase1 env k₀ faculty activities) activities

/-- The `size_configs` table of `generate_instance` (lines 343-374). -/
structure SizeConfig where
  faculty_count : ℕ
  course_count : ℕ
  lectures_per : ℕ
  practicals_per : ℕ
  bachelor_students : ℕ
  master_students : ℕ
  nirm_projects : ℕ
  deriving Repr

def sizeConfigs (size : String) : Option SizeConfig :=
  if size = "small" then
    some ⟨15, 10, 2, 2, 20, 8, 5⟩
  else if size = "medium" then
    some ⟨35, 25, 2, 3, 50, 20, 12⟩
  else if size = "large" then
    some ⟨70, 50, 3, 4, 100, 40, 25⟩
  else none

/-- `DataGenerator.generate_instance` (lines 338-419).  An invalid
size raises `ValueError`; otherwise faculty, classroom activities and
supervision activities are generated in that order (the RNG counter
threads through), then the qualification matrix. -/
def generateInstance (env : PyEnv) (size : String) :
    Except PyError ProblemInstance :=
  match sizeConfigs size with
  | none => .error .valueError
  | some cfg =>
      let fac := generateFaculty env 0 cfg.faculty_count
      let crs := generateCourses env fac.2 cfg.course_count
        cfg.lectures_per cfg.practicals_per
      match generateSupervisionActivities env crs.2 fac.1
          cfg.bachelor_students cfg.master_students cfg.nirm_projects with
      | .error e => .error e
      | .ok sup =>
          let activities := crs.1 ++ sup.1
          let qm := generateQualificationMatrix env sup.2 fac.1 activities
          .ok { faculty := qm.2.1, activities := activities,
                qualification_matrix :=
                  fun fid aid => dictGetD qm.1 (fid, aid) false,
                name := size.capitalize ++ " Instance ("
                  ++ toString qm.2.1.length ++ " faculty, "
                  ++ toString activities.length ++ " activities)" }

/-! ## Generic fold lemmas -/

theorem foldl_prod_split {α β γ : Type _} (l : List γ) (f : α → γ → α)
    (g : β → γ → β) (a₀ : α) (b₀ : β) :
    l.foldl (fun (st : α × β) c => (f st.1 c, g st.2 c)) (a₀, b₀)
      = (l.foldl f a₀, l.foldl g b₀) := by
  induction l generalizing a₀ b₀ with
  | nil => rfl
  | cons c rest ih => simpa using ih (f a₀ c) (g b₀ c)

theorem foldl_add_eq_sum {γ : Type _} (l : List γ) (t : γ → ℚ) (s₀ : ℚ) :
    l.foldl (fun s c => s + t c) s₀ = s₀ + (l.map t).sum := by
  induction l generalizing s₀ with
  | nil => simp
  | cons c rest ih =>
      simp only [List.foldl_cons, List.map_cons, List.sum_cons, ih]
      ring

theorem foldl_add_eq_sum_int {γ : Type _} (l : List γ) (t : γ → ℤ) (s₀ : ℤ) :
    l.foldl (fun s c => s + t c) s₀ = s₀ + (l.map t).sum := by
  induction l generalizing s₀ with
  | nil => simp
  | cons c rest ih =>
      simp only [List.foldl_cons, List.map_cons, List.sum_cons, ih]
      ring

/-- The load dict built by accumulating `key p ↦ + val p` reads back as
the filtered sum. -/
theorem dictGetD_accumFold {γ : Type _} (key : γ → ℕ) (val : γ → ℚ)
    (pairs : List γ) (d : List (ℕ × ℚ)) (fid : ℕ) :
    dictGetD (pairs.foldl
      (fun d p => dictSet d (key p) (dictGetD d (key p) 0 + val p)) d) fid 0
    = dictGetD d fid 0
      + ((pairs.filter (fun p => decide (key p = fid))).map val).sum := by
  induction pairs generalizing d with
  | nil => simp
  | cons p rest ih =>
      by_cases h : key p = fid
      · rw [List.foldl_cons, ih,
          show dictSet d (key p) (dictGetD d (key p) 0 + val p)
            = dictSet d fid (dictGetD d fid 0 + val p) by rw [h],
          dictGetD_dictSet_self]
        simp [List.filter_cons, h]
        ring
      · rw [List.foldl_cons, ih,
          dictGetD_dictSet_ne d (fun hh => h hh.symm)]
        simp [List.filter_cons, h]

/-! ## Claim C5: the shared chromosome evaluator -/

/-- Modelled from the spec (§4.3): the chromosome energy
`E(g) = Σ_f weight(f) · |load_f(g) − target_load(f)`
` + Σ_f max(0, load_f(g) − max_load(f)) · P_over`
` − Σ_i preferences(faculty_of(g[i]), activities[i]) · W_pref_h`
with `P_over = 100` and `W_pref_h = 0.5`, where `load_f(g)` is the sum
of hours of the activities whose gene maps to `f`.  (As in the code,
gene values address the faculty list by position.) -/
def specChromosomeEnergy (inst : ProblemInstance) (chrom : List ℕ) : ℚ :=
  let fids := facultyIds inst
  let pairs := chrom.zip inst.activities
  let load := fun (f : Faculty) =>
    ((pairs.filter (fun p => decide (fids.getD p.1 0 = f.id))).map
      (fun p => p.2.hours)).sum
  (inst.faculty.map (fun f => f.weight * |load f - f.target_load|)).sum
  + (inst.faculty.map (fun f => max 0 (load f - f.max_load) * 100)).sum
  - ((pairs.map (fun p =>
      (((inst.faculty.getD p.1 default).preferences p.2.id : ℤ) : ℚ))).sum)
    * (1/2)

theorem chromLoadsPref_eq (chrom : List ℕ) (inst : ProblemInstance)
    (fids : List ℕ) :
    chromLoadsPref chrom inst fids
      = ((chrom.zip inst.activities).foldl
          (fun d p => dictSet d (fids.getD p.1 0)
            (dictGetD d (fids.getD p.1 0) 0 + p.2.hours))
          (dictOf (fids.map (fun fid => (fid, (0 : ℚ))))),
         (chrom.zip inst.activities).foldl
          (fun s p => s + (inst.faculty.getD p.1 default).preferences p.2.id)
          0) := by
  unfold chromLoadsPref
  exact foldl_prod_split (chrom.zip inst.activities)
    (fun d (p : ℕ × CourseActivity) => dictSet d (fids.getD p.1 0)
      (dictGetD d (fids.getD p.1 0) 0 + p.2.hours))
    (fun s (p : ℕ × CourseActivity) =>
      s + (inst.faculty.getD p.1 default).preferences p.2.id)
    (dictOf (fids.map (fun fid => (fid, (0 : ℚ))))) 0

theorem chromDevPenalty_eq (loads : List (ℕ × ℚ)) (faculty : List Faculty) :
    chromDevPenalty loads faculty
      = ((faculty.map (fun f =>
            |dictGetD loads f.id 0 - f.target_load| * f.weight)).sum,
         (faculty.map (fun f =>
            if dictGetD loads f.id 0 > f.max_load then
              (dictGetD loads f.id 0 - f.max_load) * 100
            else 0)).sum) := by
  unfold chromDevPenalty
  rw [foldl_prod_split faculty
    (fun s f => s + |dictGetD loads f.id 0 - f.target_load| * f.weight)
    (fun s f => if dictGetD loads f.id 0 > f.max_load then
      s + (dictGetD loads f.id 0 - f.max_load) * 100 else s) 0 0]
  simp only [Prod.mk.injEq]
  constructor
  · simpa using foldl_add_eq_sum faculty
      (fun f => |dictGetD loads f.id 0 - f.target_load| * f.weight) 0
  · have : ∀ (s : ℚ) (f : Faculty),
        (if dictGetD loads f.id 0 > f.max_load then
          s + (dictGetD loads f.id 0 - f.max_load) * 100 else s)
        = s + (if dictGetD loads f.id 0 > f.max_load then
            (dictGetD loads f.id 0 - f.max_load) * 100 else 0) := by
      intro s f
      by_cases h : dictGetD loads f.id 0 > f.max_load <;> simp [h]
    calc faculty.foldl (fun s f => if dictGetD loads f.id 0 > f.max_load then
            s + (dictGetD loads f.id 0 - f.max_load) * 100 else s) 0
        = faculty.foldl (fun s f => s + (if dictGetD loads f.id 0 > f.max_load
            then (dictGetD loads f.id 0 - f.max_load) * 100 else 0)) 0 := by
          congr 1
          funext s f
          exact this s f
      _ = _ := by simpa using foldl_add_eq_sum faculty _ 0

/-- The load the evaluator's dict reports for a faculty member is the
filtered hour sum of the chromosome. -/
theorem chromLoads_getD (chrom : List ℕ) (inst : ProblemInstance)
    (fids : List ℕ) (fid : ℕ) :
    dictGetD (chromLoadsPref chrom inst fids).1 fid 0
      = (((chrom.zip inst.activities).filter
          (fun p => decide (fids.getD p.1 0 = fid))).map
          (fun p => p.2.hours)).sum := by
  rw [chromLoadsPref_eq]
  have h := dictGetD_accumFold (fun p : ℕ × CourseActivity => fids.getD p.1 0)
    (fun p : ℕ × CourseActivity => p.2.hours) (chrom.zip inst.activities)
    (dictOf (fids.map (fun fid => (fid, (0 : ℚ))))) fid
  simp only at h ⊢
  rw [h, dictGetD_allZero 0 (dictOf_values_const fids 0) fid, zero_add]

/-- **C5** — For every instance and chromosome, the GA's
`_calculate_fitness` and the SA's `_calculate_energy` compute the same
value, equal to
`Σ_f weight(f)·|load_f(g) − target_load(f)| + 100·Σ_f max(0, load_f(g)
− max_load(f)) − 0.5·Σ_i preferences(faculty_of(g[i]), activity_i)`. -/
theorem c5_shared_evaluator (inst : ProblemInstance) (chrom : List ℕ) :
    calculateFitness chrom inst (facultyIds inst)
      = calculateEnergy chrom inst (facultyIds inst)
    ∧ calculateFitness chrom inst (facultyIds inst)
      = specChromosomeEnergy inst chrom := by
  constructor
  · rfl
  · simp only [calculateFitness, specChromosomeEnergy]
    rw [chromDevPenalty_eq]
    simp only
    have hload : ∀ f : Faculty,
        dictGetD (chromLoadsPref chrom inst (facultyIds inst)).1 f.id 0
        = (((chrom.zip inst.activities).filter
            (fun p => decide ((facultyIds inst).getD p.1 0 = f.id))).map
            (fun p => p.2.hours)).sum := fun f =>
      chromLoads_getD chrom inst (facultyIds inst) f.id
    have hdev : (inst.faculty.map (fun f =>
        |dictGetD (chromLoadsPref chrom inst (facultyIds inst)).1 f.id 0
          - f.target_load| * f.weight)).sum
        = (inst.faculty.map (fun f =>
            f.weight * |(((chrom.zip inst.activities).filter
              (fun p => decide ((facultyIds inst).getD p.1 0 = f.id))).map
              (fun p => p.2.hours)).sum - f.target_load|)).sum := by
      congr 1
      refine List.map_congr_left ?_
      intro f _
      rw [hload f]
      ring
    have hpen : (inst.faculty.map (fun f =>
        if dictGetD (chromLoadsPref chrom inst (facultyIds inst)).1 f.id 0
            > f.max_load then
          (dictGetD (chromLoadsPref chrom inst (facultyIds inst)).1 f.id 0
            - f.max_load) * 100
        else 0)).sum
        = (inst.faculty.map (fun f =>
            max 0 ((((chrom.zip inst.activities).filter
              (fun p => decide ((facultyIds inst).getD p.1 0 = f.id))).map
              (fun p => p.2.hours)).sum - f.max_load) * 100)).sum := by
      congr 1
      refine List.map_congr_left ?_
      intro f _
      rw [hload f]
      rcases le_or_lt
        ((((chrom.zip inst.activities).filter
          (fun p => decide ((facultyIds inst).getD p.1 0 = f.id))).map
          (fun p => p.2.hours)).sum) f.max_load with h | h
      · rw [if_neg (not_lt.mpr h)]
        rw [max_eq_left (by linarith)]
        ring
      · rw [if_pos h, max_eq_right (by linarith)]
    have hpref : (((chromLoadsPref chrom inst (facultyIds inst)).2 : ℤ) : ℚ)
        = ((chrom.zip inst.activities).map (fun p =>
            (((inst.faculty.getD p.1 default).preferences p.2.id : ℤ) : ℚ))).sum := by
      rw [chromLoadsPref_eq]
      simp only
      rw [foldl_add_eq_sum_int (chrom.zip inst.activities)
        (fun p => (inst.faculty.getD p.1 default).preferences p.2.id) 0]
      push_cast
      rw [List.map_map, zero_add]
      rfl
    rw [hdev, hpen, hpref]

/-! ## Concrete fixtures for counterexamples and witnesses -/

/-- An environment: all streams constant. -/
def envZero : PyEnv :=
  { nats := fun _ => 0, floats := fun _ => 0, coins := fun _ => false,
    timeouts := fun _ => false }

/-- Like `envZero` but every `nats` draw is 1. -/
def envOne : PyEnv :=
  { nats := fun _ => 1, floats := fun _ => 0, coins := fun _ => false,
    timeouts := fun _ => false }

def facultyA : Faculty :=
  { id := 1, name := "A", rank := .TEACHER, target_load := 10,
    max_load := 100, preferences := fun _ => 0, qualified_courses := [],
    weight := 1 }

def facultyB : Faculty :=
  { id := 2, name := "B", rank := .TEACHER, target_load := 10,
    max_load := 100, preferences := fun _ => 0, qualified_courses := [],
    weight := 1 }

def activityA1 : CourseActivity :=
  { id := "A1", course_id := "CS101", course_name := "C",
    activity_type := .LECTURE, section_number := 1, hours := 20,
    student_count := 10, required_rank := none }

/-- One activity, two interchangeable qualified faculty members. -/
def instTwoFac : ProblemInstance :=
  { faculty := [facultyA, facultyB], activities := [activityA1],
    qualification_matrix :=
      fun fid aid => decide (aid = "A1" ∧ (fid = 1 ∨ fid = 2)),
    name := "two-faculty" }

/-- Minimal GA parameters: population 1, one generation, elite 1. -/
def gaParamsTiny : GAParams :=
  { population_size := 1, generations := 1, mutation_rate := 1/10,
    crossover_rate := 4/5, elite_size := 1 }

/-! ## Characterisations of the preprocessing structures -/

theorem foldl_append_filter {α β : Type _} (l : List α) (c : α → Bool)
    (g : α → β) (acc₀ : List β) :
    l.foldl (fun acc x => if c x then acc ++ [g x] else acc) acc₀
      = acc₀ ++ (l.filter c).map g := by
  induction l generalizing acc₀ with
  | nil => simp
  | cons x rest ih =>
      by_cases h : c x
      · simp [List.filter_cons, h, ih]
      · simp [List.filter_cons, h, ih]

theorem activityQualified_eq (inst : ProblemInstance) (a : CourseActivity) :
    activityQualified inst a
      = ((inst.faculty.filter (fun f => inst.qualification_matrix f.id a.id)).map
          (fun f => dictGetD (facultyMap inst.faculty) f.id 0)) := by
  unfold activityQualified
  simpa using foldl_append_filter inst.faculty
    (fun f => inst.qualification_matrix f.id a.id)
    (fun f => dictGetD (facultyMap inst.faculty) f.id 0) []

theorem activityQualified_nil_iff (inst : ProblemInstance)
    (a : CourseActivity) :
    activityQualified inst a = []
      ↔ ∀ f ∈ inst.faculty, inst.qualification_matrix f.id a.id = false := by
  rw [activityQualified_eq]
  simp only [List.map_eq_nil_iff, List.filter_eq_nil_iff]
  constructor
  · intro h f hf
    simpa using h f hf
  · intro h f hf
    simp [h f hf]

theorem mem_xKeys_iff (inst : ProblemInstance) (fid : ℕ) (aid : String) :
    (fid, aid) ∈ xKeys inst
      ↔ ∃ f ∈ inst.faculty, ∃ a ∈ inst.activities,
          inst.qualification_matrix f.id a.id = true
            ∧ f.id = fid ∧ a.id = aid := by
  unfold xKeys
  simp only [List.mem_flatMap, List.mem_filterMap]
  constructor
  · rintro ⟨f, hf, a, ha, hcond⟩
    by_cases hm : inst.qualification_matrix f.id a.id
    · rw [if_pos hm] at hcond
      have h := Option.some.inj hcond
      exact ⟨f, hf, a, ha, hm, congrArg Prod.fst h, congrArg Prod.snd h⟩
    · rw [if_neg hm] at hcond
      cases hcond
  · rintro ⟨f, hf, a, ha, hm, h1, h2⟩
    exact ⟨f, hf, a, ha, by rw [if_pos hm, h1, h2]⟩

/-- For faculty and activities of the instance, the `x`-key test is the
qualification matrix itself (the matrix is a function of the ids). -/
theorem hasXKey_eq_matrix (inst : ProblemInstance) {f : Faculty}
    {a : CourseActivity} (hf : f ∈ inst.faculty) (ha : a ∈ inst.activities) :
    hasXKey inst f.id a.id = inst.qualification_matrix f.id a.id := by
  unfold hasXKey
  by_cases hm : inst.qualification_matrix f.id a.id
  · simp only [hm, decide_eq_true_eq]
    exact (mem_xKeys_iff inst f.id a.id).mpr ⟨f, hf, a, ha, hm, rfl, rfl⟩
  · simp only [Bool.not_eq_true] at hm
    rw [hm]
    apply decide_eq_false
    intro hmem
    obtain ⟨f', _, a', _, hm', h1, h2⟩ := (mem_xKeys_iff inst f.id a.id).mp hmem
    rw [h1, h2] at hm'
    rw [hm'] at hm
    cases hm

/-! ## Claim C4: metaheuristic determinism -/

/-- **C4** — The spec requires GA/SA runs with identical
`(instance, parameters, seed)` to be bit-identical, realised by one
seeded RNG per solver instance.  `GeneticSolver.__init__`
(genetic_solver.py lines 32-46) and `SimulatedAnnealingSolver.__init__`
(sa_solver.py lines 32-44) accept no seed at all and every draw goes
through the process-global `random` module, so two runs with identical
instance and parameters differ whenever the ambient global RNG state
differs: here the same tiny instance and parameters produce an
assignment to faculty 1 under one global stream and to faculty 2 under
another. -/
theorem c4_global_rng_nondeterminism :
    gaSolve gaParamsTiny instTwoFac envZero
      ≠ gaSolve gaParamsTiny instTwoFac envOne := by
  decide

/-! ## Claim C6: the preference term in the objectives -/

/-- A faculty member whose preference for `"A1"` is `p`. -/
def facultyPref (p : ℤ) : Faculty :=
  { id := 1, name := "P", rank := .TEACHER, target_load := 0,
    max_load := 10, preferences := fun aid => if aid = "A1" then p else 0,
    qualified_courses := [], weight := 1 }

def instPref (p : ℤ) : ProblemInstance :=
  { faculty := [facultyPref p], activities := [activityA1],
    qualification_matrix := fun fid aid => decide (fid = 1 ∧ aid = "A1"),
    name := "pref" }

/-- A CP-SAT valuation assigning the single activity. -/
def cpValAssigned : CpValuation :=
  { x := fun fid aid => decide (fid = 1 ∧ aid = "A1"),
    load := fun _ => 200, dev := fun _ => 3, devPos := fun _ => 3,
    devNeg := fun _ => 0 }

/-- **C6** — The claim (and spec §4.2) requires every solver's
objective to subtract the preference term.  The PuLP objective
(pulp_solver.py lines 95-99) is the weighted-deviation sum alone:
changing the assigned pair's preference from 0 to 5 leaves it
unchanged, while both the spec objective and the OR-Tools objective
(ortools_solver.py lines 94-110) change.  The PuLP adapter omits the
preference term — per the spec a bug, not a design choice. -/
theorem c6_pulp_objective_ignores_preferences :
    pulpObjective (instPref 5) (fun _ => 3)
        = pulpObjective (instPref 0) (fun _ => 3)
    ∧ specExactObjective (instPref 5) (fun _ => 3) (fun _ _ => 1)
        ≠ specExactObjective (instPref 0) (fun _ => 3) (fun _ _ => 1)
    ∧ ortoolsObjective (instPref 5) cpValAssigned
        ≠ ortoolsObjective (instPref 0) cpValAssigned := by
  refine ⟨?_, ?_, ?_⟩
  · simp [pulpObjective, instPref, facultyPref]
  · simp [specExactObjective, instPref, facultyPref, activityA1]
  · simp [ortoolsObjective, instPref, facultyPref, activityA1,
      cpValAssigned, pyInt, hasXKey, xKeys]

/-! ## Claim C1: uncoverable activities -/

def facultyU : Faculty :=
  { id := 1, name := "U", rank := .TEACHER, target_load := 0,
    max_load := 10, preferences := fun _ => 0, qualified_courses := [],
    weight := 1 }

def activityU : CourseActivity :=
  { id := "U1", course_id := "CS1", course_name := "U",
    activity_type := .LECTURE, section_number := 1, hours := 2,
    student_count := 5, required_rank := none }

/-- One faculty member, one activity, nobody qualified. -/
def instUncov : ProblemInstance :=
  { faculty := [facultyU], activities := [activityU],
    qualification_matrix := fun _ _ => false, name := "uncoverable" }

/-- The all-zero CP-SAT valuation. -/
def cpValZero : CpValuation :=
  { x := fun _ _ => false, load := fun _ => 0, dev := fun _ => 0,
    devPos := fun _ => 0, devNeg := fun _ => 0 }

def cpRespOpt : CpResponse :=
  { status := .OPTIMAL, val := cpValZero, objective := 0 }

/-- **C1, counterexample** — `instUncov` has an activity with no
qualified faculty, yet the model `ORToolsSolver.solve` builds for it is
*satisfiable* (the cover constraint was skipped with a warning), so a
sound backend answers OPTIMAL, and the adapter then returns
`solver_status = "OPTIMAL"`, `is_feasible = true` and an empty
`unassigned_activities` — not the INFEASIBLE result the claim requires
of every solver. -/
theorem c1_counterexample :
    (firstUncoverable instUncov).isSome = true
    ∧ ortoolsModelSat instUncov cpValZero
    ∧ (ortoolsSolve instUncov cpRespOpt).solver_status = "OPTIMAL"
    ∧ (ortoolsSolve instUncov cpRespOpt).is_feasible = true
    ∧ (ortoolsSolve instUncov cpRespOpt).unassigned_activities = [] := by
  refine ⟨by decide, ?_, ?_, ?_, ?_⟩
  · refine ⟨?_, ?_, ?_, ?_, ?_⟩ <;>
      simp [instUncov, facultyU, activityU, cpValZero, pyInt, hasXKey, xKeys] <;>
      norm_num
  · rfl
  · rfl
  · rfl

/-- The uncoverable activity receives no cover constraint in the
OR-Tools model. -/
theorem coverTargets_skip (inst : ProblemInstance) (a : CourseActivity)
    (hnd : (inst.activities.map (·.id)).Nodup)
    (ha : a ∈ inst.activities)
    (hq : activityQualified inst a = []) :
    a.id ∉ ortoolsCoverTargets inst := by
  intro hmem
  unfold ortoolsCoverTargets at hmem
  rw [List.mem_filterMap] at hmem
  obtain ⟨a', ha', hcond⟩ := hmem
  by_cases he : (inst.faculty.filter (fun f => hasXKey inst f.id a'.id)).isEmpty
  · rw [if_pos he] at hcond
    cases hcond
  · rw [if_neg he] at hcond
    have hid : a'.id = a.id := Option.some.inj hcond
    have haa : a' = a := List.inj_on_of_nodup_map hnd ha' ha hid
    subst haa
    apply he
    rw [List.isEmpty_iff, List.filter_eq_nil_iff]
    intro f hf
    have hm := (activityQualified_nil_iff inst a').mp hq f hf
    rw [hasXKey_eq_matrix inst hf ha', hm]
    simp

/-- **C1, amended** — On an instance with an uncoverable activity, the
GA and SA solvers return the INFEASIBLE result with the first
uncoverable activity listed, before consuming any randomness; the
OR-Tools adapter instead skips the cover constraint for that activity
(and PuLP is structurally identical), so the exact solvers hand the
relaxed — satisfiable, per the counterexample — model to the backend
rather than reporting INFEASIBLE without a search. -/
theorem c1_amended (inst : ProblemInstance) (a : CourseActivity)
    (p : GAParams) (env : PyEnv) (sp : SAParams) (senv : PyEnv) (n : ℕ)
    (hnd : (inst.activities.map (·.id)).Nodup)
    (hu : firstUncoverable inst = some a) :
    gaSolve p inst env = some (uncoverableResult "Genetic Algorithm" a)
    ∧ saSolve sp inst senv n = uncoverableResult "Simulated Annealing" a
    ∧ (uncoverableResult "Genetic Algorithm" a).solver_status = "INFEASIBLE"
    ∧ (uncoverableResult "Genetic Algorithm" a).is_feasible = false
    ∧ (uncoverableResult "Genetic Algorithm" a).unassigned_activities = [a.id]
    ∧ a.id ∉ ortoolsCoverTargets inst := by
  have ha : a ∈ inst.activities := List.mem_of_find?_eq_some hu
  have hq : activityQualified inst a = [] := by
    have := List.find?_some hu
    simpa [List.isEmpty_iff] using this
  refine ⟨?_, ?_, rfl, rfl, rfl, coverTargets_skip inst a hnd ha hq⟩
  · simp [gaSolve, hu]
  · simp [saSolve, hu]

/-- **C1, witness** — the amended claim at the concrete uncoverable
instance. -/
theorem c1_amended_witness :
    gaSolve gaParamsTiny instUncov envZero
      = some (uncoverableResult "Genetic Algorithm" activityU)
    ∧ saSolve {} instUncov envZero 0
      = uncoverableResult "Simulated Annealing" activityU
    ∧ (uncoverableResult "Genetic Algorithm" activityU).solver_status
      = "INFEASIBLE"
    ∧ (uncoverableResult "Genetic Algorithm" activityU).is_feasible = false
    ∧ (uncoverableResult "Genetic Algorithm" activityU).unassigned_activities
      = [activityU.id]
    ∧ activityU.id ∉ ortoolsCoverTargets instUncov :=
  c1_amended instUncov activityU gaParamsTiny envZero {} envZero 0
    (by decide) (by decide)

/-! ## Claim C8: the solver-status enum -/

/-- The six values of the spec's `solver_status` enum. -/
def solverStatusEnum : List String :=
  ["OPTIMAL", "FEASIBLE", "COMPLETED", "INFEASIBLE", "UNKNOWN", "ERROR"]

/-- **C8, counterexample** — the PuLP adapter maps the native
`LpStatusNotSolved` (with no objective value, e.g. a timeout with no
incumbent) to the string `"NOT_SOLVED"`, which is not one of the six
enum values. -/
theorem c8_counterexample :
    (pulpSolveResult instTwoFac
      { status := .NotSolved, objective := none, x := fun _ _ => 0 }).solver_status
      = "NOT_SOLVED"
    ∧ "NOT_SOLVED" ∉ solverStatusEnum := by
  exact ⟨rfl, by decide⟩

/-- **C8, amended** — Every solver status lies in the six-value enum
*extended* by the stray native names the adapters leak: OR-Tools can
return `"MODEL_INVALID"`, and PuLP can return `"UNBOUNDED"`,
`"NOT_SOLVED"` or `"UNDEFINED"`; the metaheuristics only ever return
`"COMPLETED"` or `"INFEASIBLE"`. -/
theorem c8_amended :
    (∀ (inst : ProblemInstance) (resp : CpResponse),
      (ortoolsSolve inst resp).solver_status
        ∈ solverStatusEnum ++ ["MODEL_INVALID"])
    ∧ (∀ (inst : ProblemInstance) (resp : LpResponse),
      (pulpSolveResult inst resp).solver_status
        ∈ solverStatusEnum ++ ["UNBOUNDED", "NOT_SOLVED", "UNDEFINED"])
    ∧ (∀ (p : GAParams) (inst : ProblemInstance) (env : PyEnv)
        (r : OptimizationResult), gaSolve p inst env = some r →
      r.solver_status ∈ solverStatusEnum)
    ∧ (∀ (p : SAParams) (inst : ProblemInstance) (env : PyEnv) (n : ℕ),
      (saSolve p inst env n).solver_status ∈ solverStatusEnum) := by
  refine ⟨?_, ?_, ?_, ?_⟩
  · intro inst resp
    unfold ortoolsSolve
    by_cases h : resp.status = .OPTIMAL ∨ resp.status = .FEASIBLE
    · rw [if_pos h]
      by_cases h2 : resp.status = .OPTIMAL
      · simp [h2, solverStatusEnum]
      · simp [h2, solverStatusEnum]
    · rw [if_neg h]
      cases resp.status <;> simp [ortoolsStatusName, solverStatusEnum]
  · intro inst resp
    unfold pulpSolveResult
    by_cases h : (resp.status = .Optimal ∨ resp.status = .NotSolved)
        ∧ resp.objective.isSome
    · rw [if_pos h]
      by_cases h2 : resp.status = .Optimal
      · simp [h2, solverStatusEnum]
      · simp [h2, solverStatusEnum]
    · rw [if_neg h]
      cases resp.status <;> simp [pulpStatusName, solverStatusEnum]
  · intro p inst env r h
    rcases hu : firstUncoverable inst with _ | a
    · rw [gaSolve, hu] at h
      simp only [Option.map_eq_some'] at h
      obtain ⟨b, _, hr⟩ := h
      rw [← hr]
      simp [finalizeResult, solverStatusEnum]
    · rw [gaSolve, hu] at h
      have := Option.some.inj h
      rw [← this]
      simp [uncoverableResult, solverStatusEnum]
  · intro p inst env n
    rcases hu : firstUncoverable inst with _ | a
    · rw [saSolve, hu]
      simp [finalizeResult, solverStatusEnum]
    · rw [saSolve, hu]
      simp [uncoverableResult, solverStatusEnum]

/-- **C8, witness** — the amended claim at concrete inputs, including a
GA run discharging the `gaSolve … = some r` hypothesis. -/
theorem c8_amended_witness :
    (ortoolsSolve instUncov cpRespOpt).solver_status
      ∈ solverStatusEnum ++ ["MODEL_INVALID"]
    ∧ (pulpSolveResult instUncov
        { status := .NotSolved, objective := none, x := fun _ _ => 0 }).solver_status
      ∈ solverStatusEnum ++ ["UNBOUNDED", "NOT_SOLVED", "UNDEFINED"]
    ∧ (uncoverableResult "Genetic Algorithm" activityU).solver_status
      ∈ solverStatusEnum
    ∧ (saSolve {} instUncov envZero 0).solver_status ∈ solverStatusEnum :=
  ⟨c8_amended.1 instUncov cpRespOpt,
   c8_amended.2.1 instUncov _,
   c8_amended.2.2.1 gaParamsTiny instUncov envZero _ (by decide),
   c8_amended.2.2.2 {} instUncov envZero 0⟩

/-! ## Claims C9 and C10: the missing `ActivityType` members -/

def room9 : Room :=
  { id := "CR01", name := "201-аудитория", room_type := .CLASSROOM,
    capacity := 30 }

/-- A feasible result assigning the single activity of `instTwoFac`
to faculty 1. -/
def result9 : OptimizationResult :=
  { assignments := [{ faculty_id := 1, activity_id := "A1",
                      preference_score := 0 }],
    objective_value := some 20, total_deviation := some 10,
    solver_name := "OR-Tools CP-SAT", solver_status := "OPTIMAL",
    faculty_loads := [(1, 20)], unassigned_activities := [],
    is_feasible := true, gap := none }

/-- **C9** — The claim (and spec) requires the timetable produced from
any feasible result to be conflict-free; instead, at this concrete
feasible result with one resolvable assignment, `generate_timetable`
raises `AttributeError` while evaluating
`ActivityType.BACHELOR_THESIS` (timetable_generator.py lines 116-120
against the four-member enum of models.py lines 23-28), so no timetable
is produced at all. -/
theorem c9_timetable_generation_crashes :
    generateTimetable instTwoFac result9 [room9] = .error .attributeError := by
  rfl

theorem superviseBachelors_pos (env : PyEnv) (sups : List Faculty)
    (st : List CourseActivity × ℕ) {b : ℕ} (hb : 0 < b) :
    superviseBachelors env sups b st = .error .attributeError := by
  cases b with
  | zero => cases hb
  | succ n =>
      unfold superviseBachelors
      rw [List.range_succ_eq_map, List.foldlM_cons]
      rfl

theorem superviseMasters_pos (env : PyEnv) (sups : List Faculty)
    (st : List CourseActivity × ℕ) {m : ℕ} (hm : 0 < m) :
    superviseMasters env sups m st = .error .attributeError := by
  cases m with
  | zero => cases hm
  | succ n =>
      unfold superviseMasters
      rw [List.range_succ_eq_map, List.foldlM_cons]
      rfl

theorem superviseNirm_pos (env : PyEnv) (sups : List Faculty)
    (st : List CourseActivity × ℕ) {n : ℕ} (hn : 0 < n) :
    superviseNirm env sups n st = .error .attributeError := by
  cases n with
  | zero => cases hn
  | succ n'
      =>
      unfold superviseNirm
      rw [List.range_succ_eq_map, List.foldlM_cons]
      rfl

/-- `generate_supervision_activities` raises `AttributeError` whenever
it is asked for at least one supervision activity. -/
theorem generateSupervisionActivities_error (env : PyEnv) (k : ℕ)
    (fac : List Faculty) {b m n : ℕ} (h : 0 < b ∨ 0 < m ∨ 0 < n) :
    generateSupervisionActivities env k fac b m n = .error .attributeError := by
  unfold generateSupervisionActivities
  dsimp only
  rcases Nat.eq_zero_or_pos b with hb | hb
  · subst hb
    rw [show ∀ (sups : List Faculty) (st : List CourseActivity × ℕ),
        superviseBachelors env sups 0 st = .ok st from fun _ _ => rfl]
    dsimp only
    rcases Nat.eq_zero_or_pos m with hm | hm
    · subst hm
      rw [show ∀ (sups : List Faculty) (st : List CourseActivity × ℕ),
          superviseMasters env sups 0 st = .ok st from fun _ _ => rfl]
      dsimp only
      rcases Nat.eq_zero_or_pos n with hn | hn
      · subst hn
        rcases h with h | h | h <;> cases h
      · exact superviseNirm_pos env _ _ hn
    · rw [superviseMasters_pos env _ _ hm]
  · rw [superviseBachelors_pos env _ _ hb]

theorem ttLoop_error (inst : ProblemInstance) :
    ∀ l : List Assignment,
    (∃ asg ∈ l,
      (inst.activities.find? (fun a => decide (a.id = asg.activity_id))).isSome
      ∧ (inst.faculty.find? (fun f => decide (f.id = asg.faculty_id))).isSome) →
    ttLoop inst l = .error .attributeError := by
  intro l
  induction l with
  | nil => rintro ⟨asg, hmem, _⟩; cases hmem
  | cons asg rest ih =>
      intro hex
      rcases ha : inst.activities.find?
          (fun a => decide (a.id = asg.activity_id)) with _ | a
      · have hrest : ∃ asg' ∈ rest,
            (inst.activities.find?
              (fun a => decide (a.id = asg'.activity_id))).isSome
            ∧ (inst.faculty.find?
              (fun f => decide (f.id = asg'.faculty_id))).isSome := by
          obtain ⟨asg', hmem, h1, h2⟩ := hex
          rcases List.mem_cons.mp hmem with rfl | hmem'
          · rw [ha] at h1
            cases h1
          · exact ⟨asg', hmem', h1, h2⟩
        rw [ttLoop, ha]
        exact ih hrest
      · rcases hf : inst.faculty.find?
            (fun f => decide (f.id = asg.faculty_id)) with _ | f
        · have hrest : ∃ asg' ∈ rest,
              (inst.activities.find?
                (fun a => decide (a.id = asg'.activity_id))).isSome
              ∧ (inst.faculty.find?
                (fun f => decide (f.id = asg'.faculty_id))).isSome := by
            obtain ⟨asg', hmem, h1, h2⟩ := hex
            rcases List.mem_cons.mp hmem with rfl | hmem'
            · rw [hf] at h2
              cases h2
            · exact ⟨asg', hmem', h1, h2⟩
          rw [ttLoop, ha, hf]
          exact ih hrest
        · rw [ttLoop, ha, hf]
          rfl

/-- **C10** — The `ActivityType` enum of `models.py` defines exactly
`LECTURE`, `PRACTICAL`, `LAB` and `SEMINAR`, yet
`generate_supervision_activities` references
`ActivityType.BACHELOR_THESIS` / `MASTER_THESIS` / `RESEARCH_NIRM` and
`generate_timetable` references `ActivityType.BACHELOR_THESIS`:
consequently every `DataGenerator.generate_instance` call with a valid
size (all of whose configurations request supervision activities)
raises `AttributeError`, and so does every `generate_timetable` call on
a result containing at least one assignment that resolves to an
activity and a faculty member of the instance. -/
theorem c10_missing_activity_types :
    (activityTypeMember "BACHELOR_THESIS" = none
      ∧ activityTypeMember "MASTER_THESIS" = none
      ∧ activityTypeMember "RESEARCH_NIRM" = none
      ∧ ∀ t : ActivityType,
          t = .LECTURE ∨ t = .PRACTICAL ∨ t = .LAB ∨ t = .SEMINAR)
    ∧ (∀ (env : PyEnv) (size : String), (sizeConfigs size).isSome →
        generateInstance env size = .error .attributeError)
    ∧ (∀ (inst : ProblemInstance) (result : OptimizationResult)
        (rooms : List Room),
        (∃ asg ∈ result.assignments,
          (inst.activities.find?
            (fun a => decide (a.id = asg.activity_id))).isSome
          ∧ (inst.faculty.find?
            (fun f => decide (f.id = asg.faculty_id))).isSome) →
        generateTimetable inst result rooms = .error .attributeError) := by
  refine ⟨⟨rfl, rfl, rfl, fun t => by cases t <;> simp⟩, ?_, ?_⟩
  · intro env size hs
    by_cases h1 : size = "small"
    · subst h1
      rw [generateInstance,
        show sizeConfigs "small" = some ⟨15, 10, 2, 2, 20, 8, 5⟩ from rfl]
      dsimp only
      rw [generateSupervisionActivities_error env _ _ (Or.inl (by omega))]
    · by_cases h2 : size = "medium"
      · subst h2
        rw [generateInstance,
          show sizeConfigs "medium" = some ⟨35, 25, 2, 3, 50, 20, 12⟩ from rfl]
        dsimp only
        rw [generateSupervisionActivities_error env _ _ (Or.inl (by omega))]
      · by_cases h3 : size = "large"
        · subst h3
          rw [generateInstance,
            show sizeConfigs "large" = some ⟨70, 50, 3, 4, 100, 40, 25⟩ from rfl]
          dsimp only
          rw [generateSupervisionActivities_error env _ _ (Or.inl (by omega))]
        · exfalso
          rw [show sizeConfigs size = none by
            simp [sizeConfigs, h1, h2, h3]] at hs
          cases hs
  · intro inst result rooms hex
    rw [generateTimetable, ttLoop_error inst result.assignments hex]

/-- A feasible result assigning the single activity of `instTwoFac`
to faculty 2 (used to exercise the C10 theorem). -/
def result10 : OptimizationResult :=
  { assignments := [{ faculty_id := 2, activity_id := "A1",
                      preference_score := 0 }],
    objective_value := some 20, total_deviation := some 10,
    solver_name := "PuLP (PULP_CBC_CMD)", solver_status := "OPTIMAL",
    faculty_loads := [(2, 20)], unassigned_activities := [],
    is_feasible := true, gap := none }

/-- **C10, witness** — the theorem applied at `size = "small"` with a
concrete environment, and at a concrete result with one resolvable
assignment. -/
theorem c10_missing_activity_types_witness :
    generateInstance envZero "small" = .error .attributeError
    ∧ generateTimetable instTwoFac result10 [room9] = .error .attributeError :=
  ⟨c10_missing_activity_types.2.1 envZero "small" (by decide),
   c10_missing_activity_types.2.2 instTwoFac result10 [room9]
     ⟨{ faculty_id := 2, activity_id := "A1", preference_score := 0 },
      by decide, by decide, by decide⟩⟩

/-! ## Chromosome validity

The encoding invariant of §4.3: every gene is an index into its
activity's qualified-faculty list.  `ValidChrom` states it for one
chromosome relative to the per-activity options. -/

def ValidChrom (optionsList : List (List ℕ)) (c : List ℕ) : Prop :=
  c.length = optionsList.length
    ∧ ∀ i, i < c.length → c.getD i 0 ∈ optionsList.getD i []

theorem getD_mem_of_lt {α : Type _} (l : List α) (i : ℕ) (d : α)
    (h : i < l.length) : l.getD i d ∈ l := by
  rw [List.getD_eq_getElem l d h]
  exact List.getElem_mem h

theorem pyChoice_mem {α : Type _} [Inhabited α] (env : PyEnv) (k : ℕ)
    {l : List α} (h : l ≠ []) : (pyChoice env k l).1 ∈ l := by
  unfold pyChoice
  exact getD_mem_of_lt l _ default
    (Nat.mod_lt _ (List.length_pos.mpr h))

/-- Every activity's options list is non-empty when the preprocessing
does not return early. -/
theorem optionsList_ne_nil {inst : ProblemInstance}
    (h : firstUncoverable inst = none) :
    ∀ opts ∈ activityOptions inst, opts ≠ [] := by
  intro opts hmem
  unfold activityOptions at hmem
  rw [List.mem_map] at hmem
  obtain ⟨a, ha, rfl⟩ := hmem
  have := List.find?_eq_none.mp h a ha
  simpa [List.isEmpty_iff] using this

theorem initChrom_fold (env : PyEnv) :
    ∀ (l : List (List ℕ)) (acc : List ℕ) (k : ℕ),
    (∀ opts ∈ l, opts ≠ []) →
    ∃ g k', l.foldl
        (fun (st : List ℕ × ℕ) opts =>
          ((st.1 ++ [(pyChoice env st.2 opts).1], (pyChoice env st.2 opts).2)))
        (acc, k)
      = (acc ++ g, k') ∧ List.Forall₂ (· ∈ ·) g l := by
  intro l
  induction l with
  | nil =>
      intro acc k _
      exact ⟨[], k, by simp, List.Forall₂.nil⟩
  | cons opts rest ih =>
      intro acc k hne
      obtain ⟨g, k', heq, hf⟩ := ih (acc ++ [(pyChoice env k opts).1])
        (pyChoice env k opts).2 (fun o ho => hne o (List.mem_cons_of_mem _ ho))
      refine ⟨(pyChoice env k opts).1 :: g, k', ?_, ?_⟩
      · rw [List.foldl_cons, heq, List.append_cons, List.append_assoc]
        simp
      · exact List.Forall₂.cons
          (pyChoice_mem env k (hne opts (List.mem_cons_self _ _))) hf

/-- `Forall₂ (· ∈ ·)` against the options list is exactly chromosome
validity. -/
theorem validChrom_of_forall₂ {optionsList : List (List ℕ)} {c : List ℕ}
    (h : List.Forall₂ (· ∈ ·) c optionsList) : ValidChrom optionsList c := by
  have hlen := List.Forall₂.length_eq h
  refine ⟨hlen, ?_⟩
  intro i hi
  have hi2 : i < optionsList.length := hlen ▸ hi
  rw [List.getD_eq_getElem c 0 hi, List.getD_eq_getElem optionsList [] hi2]
  exact (List.forall₂_iff_get.mp h).2 i hi hi2

theorem initChrom_valid (env : PyEnv) {optionsList : List (List ℕ)}
    (hne : ∀ opts ∈ optionsList, opts ≠ []) (k : ℕ) :
    ValidChrom optionsList (initChrom env optionsList k).1 := by
  obtain ⟨g, k', heq, hf⟩ := initChrom_fold env optionsList [] k hne
  unfold initChrom
  rw [heq]
  simpa using validChrom_of_forall₂ hf

theorem initPopulation_spec (n : ℕ) (env : PyEnv)
    {optionsList : List (List ℕ)}
    (hne : ∀ opts ∈ optionsList, opts ≠ []) (k : ℕ) :
    (initPopulation n env optionsList k).1.length = n
    ∧ ∀ c ∈ (initPopulation n env optionsList k).1,
        ValidChrom optionsList c := by
  unfold initPopulation
  suffices hgen : ∀ (idx : List ℕ) (acc : List (List ℕ)) (k₀ : ℕ),
      (∀ c ∈ acc, ValidChrom optionsList c) →
      (idx.foldl (fun (st : List (List ℕ) × ℕ) _ =>
        ((st.1 ++ [(initChrom env optionsList st.2).1],
          (initChrom env optionsList st.2).2))) (acc, k₀)).1.length
        = acc.length + idx.length
      ∧ ∀ c ∈ (idx.foldl (fun (st : List (List ℕ) × ℕ) _ =>
          ((st.1 ++ [(initChrom env optionsList st.2).1],
            (initChrom env optionsList st.2).2))) (acc, k₀)).1,
          ValidChrom optionsList c by
    have h := hgen (List.range n) [] k (by intro c hc; cases hc)
    simpa using h
  intro idx
  induction idx with
  | nil => intro acc k₀ hacc; exact ⟨by simp, hacc⟩
  | cons j rest ih =>
      intro acc k₀ hacc
      have hacc' : ∀ c ∈ acc ++ [(initChrom env optionsList k₀).1],
          ValidChrom optionsList c := by
        intro c hc
        rcases List.mem_append.mp hc with hc | hc
        · exact hacc c hc
        · rw [List.mem_singleton.mp hc]
          exact initChrom_valid env hne k₀
      obtain ⟨hl, hv⟩ := ih (acc ++ [(initChrom env optionsList k₀).1])
        (initChrom env optionsList k₀).2 hacc'
      constructor
      · rw [List.foldl_cons, hl]
        simp
        omega
      · rw [List.foldl_cons]
        exact hv

theorem tournament_mem (env : PyEnv) {population : List (List ℕ)}
    (fitness : List ℚ) (k : ℕ) (h : population ≠ []) :
    (tournamentSelection env population fitness k).1 ∈ population := by
  unfold tournamentSelection pyRandint
  have hpos : 0 < population.length := List.length_pos.mpr h
  apply getD_mem_of_lt
  have hmod : ∀ t : ℕ,
      0 + t % (population.length - 1 + 1 - 0) < population.length := by
    intro t
    have heq : population.length - 1 + 1 = population.length := by omega
    rw [Nat.sub_zero, heq, Nat.zero_add]
    exact Nat.mod_lt _ hpos
  dsimp only
  repeat' split
  all_goals exact hmod _

theorem crossover_valid (env : PyEnv) {optionsList : List (List ℕ)}
    {p1 p2 : List ℕ} (h1 : ValidChrom optionsList p1)
    (h2 : ValidChrom optionsList p2) (k : ℕ) :
    ValidChrom optionsList (crossoverChrom env p1 p2 k).1 := by
  obtain ⟨hl1, hv1⟩ := h1
  obtain ⟨hl2, hv2⟩ := h2
  have hlen : (crossoverChrom env p1 p2 k).1.length = p1.length := by
    simp [crossoverChrom]
  refine ⟨by rw [hlen, hl1], ?_⟩
  intro i hi
  rw [hlen] at hi
  have hi' : i < p1.enum.length := by simpa using hi
  have hgetD : (crossoverChrom env p1 p2 k).1.getD i 0
      = if env.floats (k + p1.enum[i].1) < 1/2 then p1.enum[i].2
        else p2.getD p1.enum[i].1 0 := by
    unfold crossoverChrom
    rw [List.getD_eq_getElem _ 0 (by simpa using hi), List.getElem_map]
  have henum : p1.enum[i] = (i, p1[i]) := List.getElem_enum ..
  rw [hgetD, henum]
  dsimp only
  by_cases hc : env.floats (k + i) < 1/2
  · rw [if_pos hc]
    have := hv1 i hi
    rwa [List.getD_eq_getElem p1 0 hi] at this
  · rw [if_neg hc]
    exact hv2 i (by omega)

theorem mutate_valid (env : PyEnv) {optionsList : List (List ℕ)}
    {c : List ℕ} (hc : ValidChrom optionsList c)
    (hne : ∀ opts ∈ optionsList, opts ≠ []) (k : ℕ) :
    ValidChrom optionsList (mutateChrom env c optionsList k).1 := by
  obtain ⟨hl, hv⟩ := hc
  by_cases hnil : c = []
  · subst hnil
    exact ⟨hl, by intro i hi; simp [mutateChrom] at hi⟩
  · have hpos : 0 < c.length := List.length_pos.mpr hnil
    have hidx : (pyRandint env k 0 (c.length - 1)).1 < c.length := by
      unfold pyRandint
      have heq : c.length - 1 + 1 - 0 = c.length := by omega
      rw [heq, Nat.zero_add]
      exact Nat.mod_lt _ hpos
    have hlen : (mutateChrom env c optionsList k).1.length = c.length := by
      simp [mutateChrom]
    refine ⟨by rw [hlen, hl], ?_⟩
    intro i hi
    rw [hlen] at hi
    have hgene : (pyChoice env (pyRandint env k 0 (c.length - 1)).2
        (optionsList.getD (pyRandint env k 0 (c.length - 1)).1 [])).1
        ∈ optionsList.getD (pyRandint env k 0 (c.length - 1)).1 [] := by
      apply pyChoice_mem
      apply hne
      apply getD_mem_of_lt
      omega
    unfold mutateChrom
    by_cases heq : (pyRandint env k 0 (c.length - 1)).1 = i
    · rw [List.getD_eq_getElem _ 0 (by simpa using hi)]
      subst heq
      rw [List.getElem_set_self]
      exact hgene
    · rw [List.getD_eq_getElem _ 0 (by simpa using hi),
        List.getElem_set_ne heq]
      have := hv i hi
      rwa [List.getD_eq_getElem c 0 hi] at this

theorem gaChild_valid (env : PyEnv) (cr mr : ℚ)
    {optionsList : List (List ℕ)} {population : List (List ℕ)}
    (fitness : List ℚ) (k : ℕ)
    (hpop : ∀ c ∈ population, ValidChrom optionsList c)
    (hne : ∀ opts ∈ optionsList, opts ≠ [])
    (hnil : population ≠ []) :
    ValidChrom optionsList
      (gaChild env cr mr population fitness optionsList k).1 := by
  unfold gaChild
  dsimp only
  have h1 := hpop _ (tournament_mem env fitness k hnil)
  have h2 := hpop _ (tournament_mem env fitness
    (tournamentSelection env population fitness k).2 hnil)
  have hcx : ∀ (b : Bool) (cx : List ℕ × ℕ),
      cx = (if b then crossoverChrom env
          (tournamentSelection env population fitness k).1
          (tournamentSelection env population fitness
            (tournamentSelection env population fitness k).2).1
          ((tournamentSelection env population fitness
            (tournamentSelection env population fitness k).2).2 + 1)
        else ((tournamentSelection env population fitness k).1,
          (tournamentSelection env population fitness
            (tournamentSelection env population fitness k).2).2 + 1)) →
      ValidChrom optionsList cx.1 := by
    intro b cx hcxeq
    cases b with
    | true => rw [hcxeq, if_pos rfl]; exact crossover_valid env h1 h2 _
    | false => rw [hcxeq, if_neg (by simp)]; exact h1
  by_cases hc1 : env.floats ((tournamentSelection env population fitness
      (tournamentSelection env population fitness k).2).2) < cr
  all_goals
    first
    | (rw [if_pos hc1]
       have hv := hcx true _ (by rw [if_pos rfl])
       by_cases hc2 : env.floats ((crossoverChrom env
           (tournamentSelection env population fitness k).1
           (tournamentSelection env population fitness
             (tournamentSelection env population fitness k).2).1
           ((tournamentSelection env population fitness
             (tournamentSelection env population fitness k).2).2 + 1)).2) < mr
       · rw [if_pos hc2]
         exact mutate_valid env hv hne _
       · rw [if_neg hc2]
         exact hv)
    | (rw [if_neg hc1]
       by_cases hc2 : env.floats ((tournamentSelection env population fitness
           (tournamentSelection env population fitness k).2).2 + 1) < mr
       · rw [if_pos hc2]
         exact mutate_valid env h1 hne _
       · rw [if_neg hc2]
         exact h1)

theorem gaEvaluate_fst_length (population : List (List ℕ))
    (inst : ProblemInstance) (fids : List ℕ)
    (best : Option (List ℕ × ℚ)) :
    (gaEvaluate population inst fids best).1.length = population.length := by
  unfold gaEvaluate
  suffices h : ∀ (l : List (List ℕ)) (acc : List ℚ) (b : Option (List ℕ × ℚ)),
      (l.foldl (fun (st : List ℚ × Option (List ℕ × ℚ)) ind =>
        (st.1 ++ [calculateFitness ind inst fids],
         match st.2 with
         | none => some (ind, calculateFitness ind inst fids)
         | some bb => if calculateFitness ind inst fids < bb.2 then
             some (ind, calculateFitness ind inst fids) else some bb))
        (acc, b)).1.length = acc.length + l.length by
    simpa using h population [] best
  intro l
  induction l with
  | nil => intro acc b; simp
  | cons ind rest ih =>
      intro acc b
      rw [List.foldl_cons, ih]
      simp only [List.length_append, List.length_cons, List.length_nil]
      omega

theorem gaEvaluate_best_valid {optionsList : List (List ℕ)}
    (population : List (List ℕ)) (inst : ProblemInstance) (fids : List ℕ)
    (best : Option (List ℕ × ℚ))
    (hpop : ∀ c ∈ population, ValidChrom optionsList c)
    (hbest : ∀ b, best = some b → ValidChrom optionsList b.1) :
    ∀ b, (gaEvaluate population inst fids best).2 = some b →
      ValidChrom optionsList b.1 := by
  unfold gaEvaluate
  suffices h : ∀ (l : List (List ℕ)) (acc : List ℚ) (bb : Option (List ℕ × ℚ)),
      (∀ c ∈ l, ValidChrom optionsList c) →
      (∀ b, bb = some b → ValidChrom optionsList b.1) →
      ∀ b, (l.foldl (fun (st : List ℚ × Option (List ℕ × ℚ)) ind =>
        (st.1 ++ [calculateFitness ind inst fids],
         match st.2 with
         | none => some (ind, calculateFitness ind inst fids)
         | some bb => if calculateFitness ind inst fids < bb.2 then
             some (ind, calculateFitness ind inst fids) else some bb))
        (acc, bb)).2 = some b → ValidChrom optionsList b.1 by
    exact h population [] best hpop hbest
  intro l
  induction l with
  | nil => intro acc bb _ hb b hfold; exact hb b hfold
  | cons ind rest ih =>
      intro acc bb hl hb b hfold
      rw [List.foldl_cons] at hfold
      refine ih _ _ (fun c hc => hl c (List.mem_cons_of_mem _ hc)) ?_ b hfold
      intro b' hb'
      rcases hbb : bb with _ | bold
      · rw [hbb] at hb'
        simp only at hb'
        rw [← Option.some.inj hb']
        exact hl ind (List.mem_cons_self _ _)
      · rw [hbb] at hb'
        simp only at hb'
        by_cases hlt : calculateFitness ind inst fids < bold.2
        · rw [if_pos hlt] at hb'
          rw [← Option.some.inj hb']
          exact hl ind (List.mem_cons_self _ _)
        · rw [if_neg hlt] at hb'
          rw [← Option.some.inj hb']
          exact hb bold (by rw [hbb])

theorem argsort_entries_lt (l : List ℚ) : ∀ i ∈ argsort l, i < l.length := by
  intro i hi
  unfold argsort at hi
  exact List.mem_range.mp ((List.mem_mergeSort ..).mp hi)

/-- A fold that only appends elements satisfying `P` preserves
`∀ y ∈ ·, P y` of the accumulated list. -/
theorem mem_foldl_snoc {γ α β : Type _} (P : α → Prop)
    (step : (List α × β) → γ → (List α × β))
    (hstep : ∀ st c, (∀ y ∈ st.1, P y) → ∀ y ∈ (step st c).1, P y) :
    ∀ (l : List γ) (st : List α × β), (∀ y ∈ st.1, P y) →
      ∀ y ∈ (l.foldl step st).1, P y := by
  intro l
  induction l with
  | nil => intro st h; exact h
  | cons c rest ih =>
      intro st h
      exact ih (step st c) (hstep st c h)

theorem length_foldl_snoc {γ α β : Type _}
    (step : (List α × β) → γ → (List α × β))
    (hstep : ∀ st c, (step st c).1.length = st.1.length + 1) :
    ∀ (l : List γ) (st : List α × β),
      (l.foldl step st).1.length = st.1.length + l.length := by
  intro l
  induction l with
  | nil => intro st; simp
  | cons c rest ih =>
      intro st
      rw [List.foldl_cons, ih, hstep]
      simp only [List.length_cons]
      omega

/-- A predicate preserved by every step is preserved by the fold. -/
theorem foldl_preserves {σ γ : Type _} (P : σ → Prop) (step : σ → γ → σ)
    (hstep : ∀ st c, P st → P (step st c)) :
    ∀ (l : List γ) (st : σ), P st → P (l.foldl step st) := by
  intro l
  induction l with
  | nil => intro st h; exact h
  | cons c rest ih => intro st h; exact ih (step st c) (hstep st c h)

/-- The invariant threaded through the GA evolution loop. -/
def GAInv (optionsList : List (List ℕ)) (st : GAState) : Prop :=
  st.population ≠ []
    ∧ (∀ c ∈ st.population, ValidChrom optionsList c)
    ∧ (∀ b, st.best = some b → ValidChrom optionsList b.1)

theorem gaGeneration_inv (p : GAParams) (inst : ProblemInstance)
    (fids : List ℕ) {optionsList : List (List ℕ)} (env : PyEnv)
    (hne : ∀ opts ∈ optionsList, opts ≠ [])
    (hps : 1 ≤ p.population_size)
    {st : GAState} (hst : GAInv optionsList st) (g : ℕ) :
    GAInv optionsList (gaGeneration p inst fids optionsList env st g) := by
  obtain ⟨hnil, hpop, hbest⟩ := hst
  unfold gaGeneration
  by_cases hstop : st.stopped
  · rw [if_pos hstop]
    exact ⟨hnil, hpop, hbest⟩
  rw [if_neg hstop]
  by_cases htime : env.timeouts g
  · rw [if_pos htime]
    exact ⟨hnil, hpop, hbest⟩
  rw [if_neg htime]
  dsimp only
  have hchild : ∀ (acc : List (List ℕ) × ℕ) (c : ℕ),
      (∀ y ∈ acc.1, ValidChrom optionsList y) →
      ∀ y ∈ (acc.1 ++ [(gaChild env p.crossover_rate p.mutation_rate
          st.population (gaEvaluate st.population inst fids st.best).1
          optionsList acc.2).1],
        (gaChild env p.crossover_rate p.mutation_rate st.population
          (gaEvaluate st.population inst fids st.best).1
          optionsList acc.2).2).1, ValidChrom optionsList y := by
    intro acc c hacc y hy
    rcases List.mem_append.mp hy with hy | hy
    · exact hacc y hy
    · rw [List.mem_singleton.mp hy]
      exact gaChild_valid env _ _ _ _ hpop hne hnil
  have hchildlen := length_foldl_snoc
    (fun (acc : List (List ℕ) × ℕ) (_ : ℕ) =>
      ((acc.1 ++ [(gaChild env p.crossover_rate p.mutation_rate
          st.population (gaEvaluate st.population inst fids st.best).1
          optionsList acc.2).1],
        (gaChild env p.crossover_rate p.mutation_rate st.population
          (gaEvaluate st.population inst fids st.best).1
          optionsList acc.2).2)))
    (fun st' c => by simp)
    (List.range (p.population_size - p.elite_size)) ([], st.k)
  have helemem : ∀ c ∈ (List.range p.elite_size).map
      (fun i => st.population.getD
        ((argsort (gaEvaluate st.population inst fids st.best).1).getD i 0) []),
      ValidChrom optionsList c := by
    intro c hc
    rw [List.mem_map] at hc
    obtain ⟨i, _, rfl⟩ := hc
    apply hpop
    apply getD_mem_of_lt
    set sorted := argsort (gaEvaluate st.population inst fids st.best).1
    by_cases hi : i < sorted.length
    · have hmem : sorted.getD i 0 ∈ sorted := getD_mem_of_lt sorted i 0 hi
      have := argsort_entries_lt _ _ hmem
      rwa [gaEvaluate_fst_length] at this
    · rw [List.getD_eq_default _ _ (by omega)]
      exact List.length_pos.mpr hnil
  refine ⟨?_, ?_, ?_⟩
  · apply List.ne_nil_of_length_pos
    rw [List.length_append, List.length_map, List.length_range, hchildlen]
    simp only [List.length_nil, List.length_range]
    omega
  · intro c hc
    rcases List.mem_append.mp hc with hc | hc
    · exact helemem c hc
    · exact mem_foldl_snoc _ _ hchild _ _ (by intro y hy; cases hy) c hc
  · intro b hb
    exact gaEvaluate_best_valid st.population inst fids st.best hpop hbest b hb

/-! ## The faculty-index dict -/

theorem dictGetD_foldl_not_mem {κ ν : Type _} [DecidableEq κ]
    (pairs : List (κ × ν)) (d : List (κ × ν)) (k : κ) (v₀ : ν)
    (h : ∀ p ∈ pairs, p.1 ≠ k) :
    dictGetD (pairs.foldl (fun d p => dictSet d p.1 p.2) d) k v₀
      = dictGetD d k v₀ := by
  induction pairs generalizing d with
  | nil => rfl
  | cons p rest ih =>
      rw [List.foldl_cons,
        ih _ (fun q hq => h q (List.mem_cons_of_mem _ hq)),
        dictGetD_dictSet_ne d (fun hh => h p (List.mem_cons_self _ _) hh.symm)]

theorem dictGetD_dictOf_of_mem {κ ν : Type _} [DecidableEq κ] :
    ∀ (pairs : List (κ × ν)) (k : κ) (v v₀ : ν),
    (pairs.map Prod.fst).Nodup → (k, v) ∈ pairs →
    dictGetD (dictOf pairs) k v₀ = v := by
  have aux : ∀ (pairs : List (κ × ν)) (d : List (κ × ν)) (k : κ) (v v₀ : ν),
      (pairs.map Prod.fst).Nodup → (k, v) ∈ pairs →
      dictGetD (pairs.foldl (fun d p => dictSet d p.1 p.2) d) k v₀ = v := by
    intro pairs
    induction pairs with
    | nil => intro d k v v₀ _ hmem; cases hmem
    | cons p rest ih =>
        intro d k v v₀ hnd hmem
        rw [List.foldl_cons]
        rcases List.mem_cons.mp hmem with heq | hmem'
        · subst heq
          have hrest : ∀ q ∈ rest, q.1 ≠ k := by
            intro q hq hqk
            have hkm : k ∈ rest.map Prod.fst := by
              rw [← hqk]
              exact List.mem_map_of_mem _ hq
            exact (List.nodup_cons.mp (by simpa using hnd)).1 hkm
          rw [dictGetD_foldl_not_mem rest _ k v₀ hrest]
          exact dictGetD_dictSet_self d k v v₀
        · exact ih _ k v v₀ (List.nodup_cons.mp (by simpa using hnd)).2 hmem'
  intro pairs k v v₀ hnd hmem
  exact aux pairs [] k v v₀ hnd hmem

/-- With distinct faculty ids, `faculty_map[f.id]` is `f`'s position. -/
theorem facultyMap_getD {faculty : List Faculty}
    (hnd : (faculty.map (·.id)).Nodup) {j : ℕ} (hj : j < faculty.length) :
    dictGetD (facultyMap faculty) faculty[j].id 0 = j := by
  unfold facultyMap
  apply dictGetD_dictOf_of_mem
  · have hkeys : (faculty.enum.map (fun p => (p.2.id, p.1))).map Prod.fst
        = faculty.map (·.id) := by
      rw [List.map_map]
      have : (Prod.fst ∘ fun p : ℕ × Faculty => (p.2.id, p.1))
          = (fun f : Faculty => f.id) ∘ Prod.snd := rfl
      rw [this, ← List.map_map, List.enum_map_snd]
    rw [hkeys]
    exact hnd
  · have hje : j < faculty.enum.length := by simpa using hj
    have henum : faculty.enum[j] = (j, faculty[j]) := List.getElem_enum ..
    have hmem : (j, faculty[j]) ∈ faculty.enum := by
      rw [← henum]
      exact List.getElem_mem hje
    have := List.mem_map_of_mem (fun p : ℕ × Faculty => (p.2.id, p.1)) hmem
    simpa using this

/-- What each aligned (gene, activity) pair of a valid chromosome
guarantees: the gene addresses a real faculty member qualified for the
activity. -/
theorem valid_zip_elem {inst : ProblemInstance}
    (hndf : (inst.faculty.map (·.id)).Nodup) {b : List ℕ}
    (hb : ValidChrom (activityOptions inst) b) :
    ∀ p ∈ b.zip inst.activities, ∃ f ∈ inst.faculty,
      p.1 < inst.faculty.length
      ∧ (facultyIds inst).getD p.1 0 = f.id
      ∧ inst.qualification_matrix f.id p.2.id = true := by
  obtain ⟨hlen, hv⟩ := hb
  intro p hp
  obtain ⟨i, hi, hpe⟩ := List.mem_iff_getElem.mp hp
  have hib : i < b.length := by
    rw [List.length_zip] at hi
    omega
  have hia : i < inst.activities.length := by
    rw [List.length_zip] at hi
    omega
  have hzip : (b.zip inst.activities)[i] = (b[i], inst.activities[i]) :=
    List.getElem_zip ..
  have hopt : b[i] ∈ activityQualified inst inst.activities[i] := by
    have h1 := hv i hib
    rw [List.getD_eq_getElem b 0 hib] at h1
    have h2 : (activityOptions inst).getD i []
        = activityQualified inst inst.activities[i] := by
      unfold activityOptions
      rw [List.getD_eq_getElem _ [] (by simpa using hia), List.getElem_map]
    rwa [h2] at h1
  rw [activityQualified_eq] at hopt
  rw [List.mem_map] at hopt
  obtain ⟨f, hf, hgene⟩ := hopt
  rw [List.mem_filter] at hf
  obtain ⟨hfmem, hfq⟩ := hf
  obtain ⟨j, hj, hfj⟩ := List.mem_iff_getElem.mp hfmem
  have hlook : dictGetD (facultyMap inst.faculty) f.id 0 = j := by
    rw [← hfj]
    exact facultyMap_getD hndf hj
  refine ⟨f, hfmem, ?_, ?_, ?_⟩
  · rw [← hpe, hzip]
    dsimp only
    rw [← hgene, hlook]
    exact hj
  · rw [← hpe, hzip]
    dsimp only
    rw [← hgene, hlook]
    unfold facultyIds
    rw [List.getD_eq_getElem _ 0 (by simpa using hj), List.getElem_map, hfj]
  · rw [← hpe, hzip]
    dsimp only
    exact hfq

/-! ## Properties of the final result conversion -/

theorem valid_length_activities {inst : ProblemInstance} {b : List ℕ}
    (hb : ValidChrom (activityOptions inst) b) :
    b.length = inst.activities.length := by
  rw [hb.1]
  unfold activityOptions
  exact List.length_map ..

/-- Every assignment the conversion emits pairs a qualified faculty
member with its activity (I2 / eligibility). -/
theorem finalize_eligibility {inst : ProblemInstance}
    (hndf : (inst.faculty.map (·.id)).Nodup) {b : List ℕ}
    (hb : ValidChrom (activityOptions inst) b) (obj : Option ℚ) (nm : String) :
    ∀ asg ∈ (finalizeResult inst b obj nm).assignments,
      inst.qualification_matrix asg.faculty_id asg.activity_id = true := by
  intro asg hmem
  have hmem' : asg ∈ (b.zip inst.activities).map
      (fun p : ℕ × CourseActivity =>
        ({ faculty_id := (facultyIds inst).getD p.1 0, activity_id := p.2.id,
           preference_score :=
             (((inst.faculty.getD p.1 default).preferences p.2.id : ℤ) : ℚ) }
          : Assignment)) := by
    simpa [finalizeResult] using hmem
  rw [List.mem_map] at hmem'
  obtain ⟨p, hp, rfl⟩ := hmem'
  obtain ⟨f, _, _, hid, hm⟩ := valid_zip_elem hndf hb p hp
  dsimp only
  rw [hid]
  exact hm

/-- The emitted assignment list carries exactly the instance's
activity ids, in order (I1 / coverage). -/
theorem finalize_ids {inst : ProblemInstance} {b : List ℕ}
    (hb : ValidChrom (activityOptions inst) b) (obj : Option ℚ) (nm : String) :
    (finalizeResult inst b obj nm).assignments.map (·.activity_id)
      = inst.activities.map (·.id) := by
  have hlen : inst.activities.length ≤ b.length := by
    rw [valid_length_activities hb]
  have hassign : (finalizeResult inst b obj nm).assignments
      = (b.zip inst.activities).map
        (fun p : ℕ × CourseActivity =>
          ({ faculty_id := (facultyIds inst).getD p.1 0, activity_id := p.2.id,
             preference_score :=
               (((inst.faculty.getD p.1 default).preferences p.2.id : ℤ) : ℚ) }
            : Assignment)) := by
    simp [finalizeResult]
  rw [hassign, List.map_map]
  have hcomp : ((fun asg : Assignment => asg.activity_id) ∘
      (fun p : ℕ × CourseActivity =>
        ({ faculty_id := (facultyIds inst).getD p.1 0, activity_id := p.2.id,
           preference_score :=
             (((inst.faculty.getD p.1 default).preferences p.2.id : ℤ) : ℚ) }
          : Assignment)))
      = (fun a : CourseActivity => a.id) ∘ Prod.snd := rfl
  rw [hcomp, ← List.map_map, List.map_snd_zip b inst.activities hlen]

theorem sumKeys_accumFold {γ : Type _} (keyOf : γ → ℕ) (val : γ → ℚ) :
    ∀ (pairs : List γ) (d : List (ℕ × ℚ)) (keys : List ℕ), keys.Nodup →
    (∀ p ∈ pairs, keyOf p ∈ keys) →
    dictSumKeys (pairs.foldl
      (fun d p => dictSet d (keyOf p) (dictGetD d (keyOf p) 0 + val p)) d) keys
      = dictSumKeys d keys + (pairs.map val).sum := by
  intro pairs
  induction pairs with
  | nil => intro d keys _ _; simp
  | cons p rest ih =>
      intro d keys hnd hkeys
      rw [List.foldl_cons,
        ih _ keys hnd (fun q hq => hkeys q (List.mem_cons_of_mem _ hq)),
        dictSumKeys_update d (hkeys p (List.mem_cons_self _ _)) hnd (val p)]
      simp only [List.map_cons, List.sum_cons]
      ring

/-- I4 made global: the reported per-faculty loads sum to the total
demand, so all-within-capacity forces `Σ hours ≤ Σ max_load`. -/
theorem finalize_loads_sum {inst : ProblemInstance}
    (hndf : (inst.faculty.map (·.id)).Nodup) {b : List ℕ}
    (hb : ValidChrom (activityOptions inst) b) (obj : Option ℚ) (nm : String) :
    dictSumKeys (finalizeResult inst b obj nm).faculty_loads (facultyIds inst)
      = (inst.activities.map (·.hours)).sum := by
  have hlen : inst.activities.length ≤ b.length := by
    rw [valid_length_activities hb]
  have hloads : (finalizeResult inst b obj nm).faculty_loads
      = (b.zip inst.activities).foldl
        (fun d p => dictSet d ((facultyIds inst).getD p.1 0)
          (dictGetD d ((facultyIds inst).getD p.1 0) 0 + p.2.hours))
        (dictOf ((facultyIds inst).map (fun fid => (fid, (0 : ℚ))))) := by
    simp [finalizeResult]
  rw [hloads]
  rw [sumKeys_accumFold (fun p : ℕ × CourseActivity => (facultyIds inst).getD p.1 0)
    (fun p : ℕ × CourseActivity => p.2.hours) (b.zip inst.activities) _
    (facultyIds inst) hndf ?hk]
  case hk =>
    intro p hp
    obtain ⟨f, hf, _, hid, _⟩ := valid_zip_elem hndf hb p hp
    dsimp only
    rw [hid]
    exact List.mem_map_of_mem _ hf
  rw [dictSumKeys_zeroInit]
  have hsnd : ((b.zip inst.activities).map
      (fun p : ℕ × CourseActivity => p.2.hours))
      = inst.activities.map (·.hours) := by
    rw [show (fun p : ℕ × CourseActivity => p.2.hours)
        = (fun a : CourseActivity => a.hours) ∘ Prod.snd from rfl,
      ← List.map_map, List.map_snd_zip b inst.activities hlen]
  rw [hsnd, zero_add]

/-- When total demand exceeds total capacity, the conversion reports
`is_feasible = false`. -/
theorem finalize_infeasible_of_overload {inst : ProblemInstance}
    (hndf : (inst.faculty.map (·.id)).Nodup) {b : List ℕ}
    (hb : ValidChrom (activityOptions inst) b) (obj : Option ℚ) (nm : String)
    (hover : (inst.activities.map (·.hours)).sum
      > (inst.faculty.map (·.max_load)).sum) :
    (finalizeResult inst b obj nm).is_feasible = false := by
  by_contra hcon
  have htrue : (finalizeResult inst b obj nm).is_feasible = true := by
    revert hcon
    cases (finalizeResult inst b obj nm).is_feasible <;> simp
  have hall : ∀ f ∈ inst.faculty,
      dictGetD (finalizeResult inst b obj nm).faculty_loads f.id 0
        ≤ f.max_load := by
    have h := htrue
    simp only [finalizeResult, List.all_eq_true] at h
    intro f hf
    have := h f hf
    exact of_decide_eq_true this
  have hsum : dictSumKeys (finalizeResult inst b obj nm).faculty_loads
      (facultyIds inst) ≤ (inst.faculty.map (·.max_load)).sum := by
    unfold dictSumKeys facultyIds
    rw [List.map_map]
    apply List.sum_le_sum
    intro f hf
    exact hall f hf
  rw [finalize_loads_sum hndf hb obj nm] at hsum
  exact absurd hsum (not_le.mpr hover)

/-! ## Characterising the solver outputs -/

/-- `gaSolve`'s success path always goes through `finalizeResult` on a
valid best chromosome. -/
theorem gaSolve_some_valid {p : GAParams} {inst : ProblemInstance}
    {env : PyEnv} {r : OptimizationResult}
    (hfu : firstUncoverable inst = none) (hps : 1 ≤ p.population_size)
    (h : gaSolve p inst env = some r) :
    ∃ b obj, ValidChrom (activityOptions inst) b
      ∧ r = finalizeResult inst b (some obj) "Genetic Algorithm" := by
  rw [gaSolve, hfu] at h
  simp only [Option.map_eq_some'] at h
  obtain ⟨b, hbest, hr⟩ := h
  have hne := optionsList_ne_nil hfu
  have hinit := initPopulation_spec p.population_size env hne 0
  have hInv₀ : GAInv (activityOptions inst)
      { population := (initPopulation p.population_size env
          (activityOptions inst) 0).1,
        best := none,
        k := (initPopulation p.population_size env (activityOptions inst) 0).2,
        stopped := false } := by
    refine ⟨?_, hinit.2, ?_⟩
    · apply List.ne_nil_of_length_pos
      rw [hinit.1]
      omega
    · intro bb hbb
      cases hbb
  have hfinal := foldl_preserves (GAInv (activityOptions inst))
    (gaGeneration p inst (facultyIds inst) (activityOptions inst) env)
    (fun st g hst => gaGeneration_inv p inst (facultyIds inst) env hne hps hst g)
    (List.range p.generations) _ hInv₀
  exact ⟨b.1, b.2, hfinal.2.2 b hbest, hr.symm⟩

/-- The invariant threaded through the SA loop. -/
def SAInv (optionsList : List (List ℕ)) (st : SAState) : Prop :=
  ValidChrom optionsList st.current ∧ ValidChrom optionsList st.best

theorem saStep_inv (env : PyEnv) (inst : ProblemInstance) (fids : List ℕ)
    {optionsList : List (List ℕ)}
    (hne : ∀ opts ∈ optionsList, opts ≠ [])
    {st : SAState} (hst : SAInv optionsList st) :
    SAInv optionsList (saStep env inst fids optionsList st) := by
  obtain ⟨hcur, hbest⟩ := hst
  have hmut := mutate_valid env hcur hne st.k
  unfold saStep
  dsimp only
  by_cases h1 : calculateEnergy (mutateChrom env st.current optionsList st.k).1
      inst fids - st.currentE < 0
  · rw [if_pos h1]
    by_cases h2 : calculateEnergy (mutateChrom env st.current optionsList st.k).1
        inst fids < st.bestE
    · rw [if_pos h2]
      exact ⟨hmut, hmut⟩
    · rw [if_neg h2]
      exact ⟨hmut, hbest⟩
  · rw [if_neg h1]
    by_cases h3 : env.coins (mutateChrom env st.current optionsList st.k).2
    · rw [if_pos h3]
      exact ⟨hmut, hbest⟩
    · rw [if_neg h3]
      exact ⟨hcur, hbest⟩

theorem saBlock_inv (p : SAParams) (inst : ProblemInstance) (fids : List ℕ)
    {optionsList : List (List ℕ)} (env : PyEnv)
    (hne : ∀ opts ∈ optionsList, opts ≠ [])
    {st : SAState} (hst : SAInv optionsList st) (b : ℕ) :
    SAInv optionsList (saBlock p inst fids optionsList env st b) := by
  unfold saBlock
  by_cases hstop : st.stopped
  · rw [if_pos hstop]
    exact hst
  rw [if_neg hstop]
  by_cases htime : env.timeouts b
  · rw [if_pos htime]
    exact hst
  rw [if_neg htime]
  exact foldl_preserves (SAInv optionsList)
    (fun s _ => saStep env inst fids optionsList s)
    (fun s c hs => saStep_inv env inst fids hne hs)
    (List.range p.steps_per_temp) st hst

/-- `saSolve`'s main path always goes through `finalizeResult` on a
valid best solution. -/
theorem saSolve_eq_finalize (p : SAParams) (inst : ProblemInstance)
    (env : PyEnv) (n : ℕ) (hfu : firstUncoverable inst = none) :
    ∃ b obj, ValidChrom (activityOptions inst) b
      ∧ saSolve p inst env n
        = finalizeResult inst b (some obj) "Simulated Annealing" := by
  rw [saSolve, hfu]
  dsimp only
  have hne := optionsList_ne_nil hfu
  have hinit := initChrom_valid env hne 0
  have hfinal := foldl_preserves (SAInv (activityOptions inst))
    (saBlock p inst (facultyIds inst) (activityOptions inst) env)
    (fun st b hst => saBlock_inv p inst (facultyIds inst) env hne hst b)
    (List.range n)
    { current := (initChrom env (activityOptions inst) 0).1,
      currentE := calculateEnergy (initChrom env (activityOptions inst) 0).1
        inst (facultyIds inst),
      best := (initChrom env (activityOptions inst) 0).1,
      bestE := calculateEnergy (initChrom env (activityOptions inst) 0).1
        inst (facultyIds inst),
      k := (initChrom env (activityOptions inst) 0).2,
      stopped := false }
    ⟨hinit, hinit⟩
  exact ⟨_, _, hfinal.2, rfl⟩

/-- The assignments the OR-Tools success branch extracts, as one flat
list expression. -/
theorem ortoolsExtract_fst (inst : ProblemInstance) (v : CpValuation) :
    (ortoolsExtract inst v).1
      = inst.faculty.flatMap (fun f =>
          (inst.activities.filter
            (fun a => hasXKey inst f.id a.id && v.x f.id a.id)).map
            (fun a => ({ faculty_id := f.id, activity_id := a.id,
                         preference_score := ((f.preferences a.id : ℤ) : ℚ) }
              : Assignment))) := by
  have hinner : ∀ (f : Faculty) (acc : List Assignment) (t : ℚ),
      (inst.activities.foldl
        (fun (st2 : List Assignment × ℚ) a =>
          if hasXKey inst f.id a.id && v.x f.id a.id then
            (st2.1 ++ [{ faculty_id := f.id, activity_id := a.id,
                         preference_score := ((f.preferences a.id : ℤ) : ℚ) }],
             st2.2 + a.hours)
          else st2)
        (acc, t)).1
      = acc ++ (inst.activities.filter
          (fun a => hasXKey inst f.id a.id && v.x f.id a.id)).map
          (fun a => ({ faculty_id := f.id, activity_id := a.id,
                       preference_score := ((f.preferences a.id : ℤ) : ℚ) }
            : Assignment)) := by
    intro f
    induction inst.activities with
    | nil => intro acc t; simp
    | cons a rest ih =>
        intro acc t
        by_cases hc : hasXKey inst f.id a.id && v.x f.id a.id
        · rw [List.foldl_cons, if_pos hc, ih, List.filter_cons, if_pos hc]
          simp
        · rw [List.foldl_cons, if_neg hc, ih, List.filter_cons, if_neg hc]
  have haux : ∀ (fl : List Faculty) (acc : List Assignment)
      (d : List (ℕ × ℚ)),
      (fl.foldl
        (fun (st : List Assignment × List (ℕ × ℚ)) f =>
          ((inst.activities.foldl
            (fun (st2 : List Assignment × ℚ) a =>
              if hasXKey inst f.id a.id && v.x f.id a.id then
                (st2.1 ++ [{ faculty_id := f.id, activity_id := a.id,
                             preference_score := ((f.preferences a.id : ℤ) : ℚ) }],
                 st2.2 + a.hours)
              else st2)
            (st.1, 0)).1,
           dictSet st.2 f.id
            (inst.activities.foldl
              (fun (st2 : List Assignment × ℚ) a =>
                if hasXKey inst f.id a.id && v.x f.id a.id then
                  (st2.1 ++ [{ faculty_id := f.id, activity_id := a.id,
                               preference_score := ((f.preferences a.id : ℤ) : ℚ) }],
                   st2.2 + a.hours)
                else st2)
              (st.1, 0)).2))
        (acc, d)).1
      = acc ++ fl.flatMap (fun f =>
          (inst.activities.filter
            (fun a => hasXKey inst f.id a.id && v.x f.id a.id)).map
            (fun a => ({ faculty_id := f.id, activity_id := a.id,
                         preference_score := ((f.preferences a.id : ℤ) : ℚ) }
              : Assignment))) := by
    intro fl
    induction fl with
    | nil => intro acc d; simp
    | cons f rest ih =>
        intro acc d
        rw [List.foldl_cons]
        dsimp only
        rw [ih, hinner f acc 0, List.flatMap_cons, ← List.append_assoc]
  unfold ortoolsExtract
  exact haux inst.faculty [] []

/-! ## Counting assignments per activity -/

theorem filter_id_eq_singleton {acts : List CourseActivity}
    (hnd : (acts.map (·.id)).Nodup) {a : CourseActivity} (ha : a ∈ acts) :
    acts.filter (fun a' => a'.id == a.id) = [a] := by
  induction acts with
  | nil => cases ha
  | cons a₀ rest ih =>
      have hnd2 := hnd
      rw [List.map_cons, List.nodup_cons] at hnd2
      obtain ⟨hnotin, hndrest⟩ := hnd2
      rcases List.mem_cons.mp ha with rfl | hmem
      · rw [List.filter_cons, if_pos (by simp)]
        have hrest : rest.filter (fun a' => a'.id == a.id) = [] := by
          rw [List.filter_eq_nil_iff]
          intro a' ha' hcon
          apply hnotin
          have hconid : a'.id = a.id := by simpa using hcon
          rw [← hconid]
          exact List.mem_map_of_mem _ ha'
        rw [hrest]
      · have hne : ¬(a₀.id == a.id) = true := by
          intro hcon
          apply hnotin
          rw [show a₀.id = a.id by simpa using hcon]
          exact List.mem_map_of_mem _ hmem
        rw [List.filter_cons, if_neg hne]
        exact ih hndrest hmem

theorem count_flatMap {α β : Type _} [BEq β] (l : List α) (g : α → List β)
    (x : β) :
    (l.flatMap g).count x = (l.map (fun a => (g a).count x)).sum := by
  induction l with
  | nil => simp
  | cons a rest ih =>
      rw [List.flatMap_cons, List.count_append, ih]
      simp

theorem sum_guard_filter (l : List Faculty) (c₁ c₂ : Faculty → Bool) :
    (l.map (fun f => if c₁ f && c₂ f then (1 : ℤ) else 0)).sum
      = ((l.filter c₁).map (fun f => if c₂ f then (1 : ℤ) else 0)).sum := by
  induction l with
  | nil => simp
  | cons f rest ih =>
      by_cases h1 : c₁ f
      · rw [List.map_cons, List.sum_cons, List.filter_cons, if_pos h1,
          List.map_cons, List.sum_cons, ih, h1]
        simp
      · rw [List.map_cons, List.sum_cons, List.filter_cons, if_neg h1, ih]
        have : (c₁ f && c₂ f) = false := by
          rw [Bool.and_eq_false_iff]
          left
          exact Bool.not_eq_true _ ▸ (by simpa using h1)
        rw [this]
        simp

/-- The extracted OR-Tools assignments carry activity `a`'s id exactly
as often as the guarded indicator sum over the faculty list. -/
theorem ortools_count_eq_indicator {inst : ProblemInstance}
    (hnda : (inst.activities.map (·.id)).Nodup) {a : CourseActivity}
    (ha : a ∈ inst.activities) (v : CpValuation) :
    ((ortoolsExtract inst v).1.map (·.activity_id)).count a.id
      = (inst.faculty.map (fun f =>
          if hasXKey inst f.id a.id && v.x f.id a.id then 1 else 0)).sum := by
  rw [ortoolsExtract_fst, List.map_flatMap, count_flatMap]
  congr 1
  refine List.map_congr_left ?_
  intro f _
  rw [List.map_map]
  have hcomp : ((fun asg : Assignment => asg.activity_id) ∘
      (fun a' : CourseActivity =>
        ({ faculty_id := f.id, activity_id := a'.id,
           preference_score := ((f.preferences a'.id : ℤ) : ℚ) } : Assignment)))
      = fun a' : CourseActivity => a'.id := rfl
  rw [hcomp, List.count_eq_countP, List.countP_map,
    List.countP_eq_length_filter, List.filter_filter]
  have hswap : (inst.activities.filter
      (fun a' => ((fun s => s == a.id) ∘ (fun a' : CourseActivity => a'.id)) a'
        && (hasXKey inst f.id a'.id && v.x f.id a'.id)))
      = inst.activities.filter
        (fun a' => (hasXKey inst f.id a'.id && v.x f.id a'.id)
          && (a'.id == a.id)) := by
    apply List.filter_congr
    intro a' _
    simp [Bool.and_comm]
  rw [hswap, ← List.filter_filter, filter_id_eq_singleton hnda ha,
    List.filter_cons]
  by_cases hc : hasXKey inst f.id a.id && v.x f.id a.id
  · rw [if_pos (by simpa using hc), if_pos hc]
    rfl
  · rw [if_neg (by simpa using hc), if_neg hc]
    rfl

/-- A coverable activity has a non-empty qualified-variable list in
the OR-Tools model. -/
theorem coverable_hasXKey_filter_ne {inst : ProblemInstance}
    {a : CourseActivity} (ha : a ∈ inst.activities)
    (hq : activityQualified inst a ≠ []) :
    inst.faculty.filter (fun f => hasXKey inst f.id a.id) ≠ [] := by
  intro hcon
  apply hq
  rw [activityQualified_nil_iff]
  intro f hf
  have := List.filter_eq_nil_iff.mp hcon f hf
  rw [← hasXKey_eq_matrix inst hf ha]
  exact Bool.not_eq_true _ ▸ (by simpa using this)

/-- From the satisfied cover constraint: each coverable activity is
assigned exactly once by a sound backend valuation. -/
theorem ortools_count_one {inst : ProblemInstance}
    (hnda : (inst.activities.map (·.id)).Nodup) {a : CourseActivity}
    (ha : a ∈ inst.activities) (hq : activityQualified inst a ≠ [])
    {v : CpValuation} (hsat : ortoolsModelSat inst v) :
    ((ortoolsExtract inst v).1.map (·.activity_id)).count a.id = 1 := by
  rw [ortools_count_eq_indicator hnda ha]
  have hcover := hsat.2.1 a ha (coverable_hasXKey_filter_ne ha hq)
  have hguard : (inst.faculty.map (fun f =>
      if hasXKey inst f.id a.id && v.x f.id a.id then (1 : ℤ) else 0)).sum
      = 1 := by
    rw [sum_guard_filter inst.faculty (fun f => hasXKey inst f.id a.id)
      (fun f => v.x f.id a.id)]
    have : ((inst.faculty.filter (fun f => hasXKey inst f.id a.id)).map
        (fun f => if v.x f.id a.id then (1 : ℤ) else 0))
        = ((inst.faculty.filter (fun f => hasXKey inst f.id a.id)).map
          (fun f => if v.x f.id a.id = true then (1 : ℤ) else 0)) := rfl
    rw [this]
    exact hcover
  have hcast : (((inst.faculty.map (fun f =>
      if hasXKey inst f.id a.id && v.x f.id a.id then (1 : ℕ) else 0)).sum : ℕ) : ℤ)
      = (inst.faculty.map (fun f =>
        if hasXKey inst f.id a.id && v.x f.id a.id then (1 : ℤ) else 0)).sum := by
    rw [Nat.cast_list_sum, List.map_map]
    congr 1
    refine List.map_congr_left ?_
    intro f _
    by_cases hc : (hasXKey inst f.id a.id && v.x f.id a.id) = true
    · dsimp only [Function.comp]
      rw [if_pos hc, if_pos hc]
      simp
    · dsimp only [Function.comp]
      rw [if_neg hc, if_neg hc]
      simp
  have hfin : (((inst.faculty.map (fun f =>
      if hasXKey inst f.id a.id && v.x f.id a.id then (1 : ℕ) else 0)).sum : ℕ) : ℤ)
      = (1 : ℤ) := by rw [hcast, hguard]
  omega

/-! ## Claim C2: coverage -/

def facultyC2 : Faculty :=
  { id := 1, name := "C", rank := .TEACHER, target_load := 2,
    max_load := 5, preferences := fun _ => 0, qualified_courses := [],
    weight := 1 }

def activityC2A : CourseActivity :=
  { id := "A", course_id := "CS1", course_name := "A",
    activity_type := .LECTURE, section_number := 1, hours := 2,
    student_count := 5, required_rank := none }

def activityC2B : CourseActivity :=
  { id := "B", course_id := "CS1", course_name := "B",
    activity_type := .LECTURE, section_number := 2, hours := 3,
    student_count := 5, required_rank := none }

/-- Activity `"A"` coverable, `"B"` uncoverable. -/
def instPartial : ProblemInstance :=
  { faculty := [facultyC2], activities := [activityC2A, activityC2B],
    qualification_matrix := fun fid aid => decide (fid = 1 ∧ aid = "A"),
    name := "partial" }

def cpValPartial : CpValuation :=
  { x := fun fid aid => decide (fid = 1 ∧ aid = "A"),
    load := fun _ => 20, dev := fun _ => 0, devPos := fun _ => 0,
    devNeg := fun _ => 0 }

def cpRespPartial : CpResponse :=
  { status := .OPTIMAL, val := cpValPartial, objective := 0 }

/-- **C2, counterexample** — `instPartial` has an uncoverable activity
`"B"`; the OR-Tools adapter skipped its cover constraint, the model is
satisfied by `cpValPartial`, and the adapter then returns a result with
`is_feasible = true` in which `"B"` appears in *zero* assignments —
refuting "each activity appears in exactly one Assignment of every
result returned with is_feasible = true". -/
theorem c2_counterexample :
    activityC2B ∈ instPartial.activities
    ∧ ortoolsModelSat instPartial cpValPartial
    ∧ (ortoolsSolve instPartial cpRespPartial).is_feasible = true
    ∧ ((ortoolsSolve instPartial cpRespPartial).assignments.map
        (·.activity_id)).count activityC2B.id = 0 := by
  refine ⟨by decide, ?_, rfl, by decide⟩
  refine ⟨?_, ?_, ?_, ?_, ?_⟩ <;>
    simp [instPartial, facultyC2, activityC2A, activityC2B, cpValPartial,
      pyInt, hasXKey, xKeys] <;>
    norm_num

/-- **C2, amended** — In every result the GA and SA solvers return,
each activity of the instance appears in exactly one assignment; the
same holds for the OR-Tools adapter given a sound backend response
*provided every activity has at least one qualified faculty member*
(without that proviso the counterexample applies). -/
theorem c2_amended :
    (∀ (p : GAParams) (inst : ProblemInstance) (env : PyEnv)
        (r : OptimizationResult) (a : CourseActivity),
      (inst.activities.map (·.id)).Nodup →
      firstUncoverable inst = none →
      1 ≤ p.population_size →
      gaSolve p inst env = some r →
      a ∈ inst.activities →
      (r.assignments.map (·.activity_id)).count a.id = 1)
    ∧ (∀ (sp : SAParams) (inst : ProblemInstance) (env : PyEnv) (n : ℕ)
        (a : CourseActivity),
      (inst.activities.map (·.id)).Nodup →
      firstUncoverable inst = none →
      a ∈ inst.activities →
      ((saSolve sp inst env n).assignments.map (·.activity_id)).count a.id = 1)
    ∧ (∀ (inst : ProblemInstance) (resp : CpResponse) (a : CourseActivity),
      (inst.activities.map (·.id)).Nodup →
      firstUncoverable inst = none →
      (resp.status = .OPTIMAL ∨ resp.status = .FEASIBLE) →
      ortoolsModelSat inst resp.val →
      a ∈ inst.activities →
      ((ortoolsSolve inst resp).assignments.map (·.activity_id)).count a.id
        = 1) := by
  refine ⟨?_, ?_, ?_⟩
  · intro p inst env r a hnda hfu hps hrun ha
    obtain ⟨b, obj, hvb, hr⟩ := gaSolve_some_valid hfu hps hrun
    rw [hr, finalize_ids hvb]
    exact List.count_eq_one_of_mem hnda (List.mem_map_of_mem _ ha)
  · intro sp inst env n a hnda hfu ha
    obtain ⟨b, obj, hvb, heq⟩ := saSolve_eq_finalize sp inst env n hfu
    rw [heq, finalize_ids hvb]
    exact List.count_eq_one_of_mem hnda (List.mem_map_of_mem _ ha)
  · intro inst resp a hnda hfu hstat hsat ha
    have hq : activityQualified inst a ≠ [] := by
      have := List.find?_eq_none.mp hfu a ha
      simpa [List.isEmpty_iff] using this
    unfold ortoolsSolve
    rw [if_pos hstat]
    dsimp only
    exact ortools_count_one hnda ha hq hsat

/-- A sound OPTIMAL response for `instTwoFac`: faculty 1 takes the
activity. -/
def cpValTwo : CpValuation :=
  { x := fun fid aid => decide (fid = 1 ∧ aid = "A1"),
    load := fun fid => if fid = 1 then 200 else 0,
    dev := fun _ => 100,
    devPos := fun fid => if fid = 1 then 100 else 0,
    devNeg := fun fid => if fid = 1 then 0 else 100 }

def cpRespTwo : CpResponse :=
  { status := .OPTIMAL, val := cpValTwo, objective := 0 }

theorem cpValTwo_sat : ortoolsModelSat instTwoFac cpValTwo := by
  refine ⟨?_, ?_, ?_, ?_, ?_⟩ <;>
    simp [instTwoFac, facultyA, facultyB, activityA1, cpValTwo, pyInt,
      hasXKey, xKeys] <;>
    norm_num

/-- **C2, witness** — the amended claim at concrete runs of all three
solvers on `instTwoFac`. -/
theorem c2_amended_witness :
    ((finalizeResult instTwoFac
        (initChrom envZero (activityOptions instTwoFac) 0).1
        (some (calculateFitness
          (initChrom envZero (activityOptions instTwoFac) 0).1
          instTwoFac (facultyIds instTwoFac)))
        "Genetic Algorithm").assignments.map (·.activity_id)).count
      activityA1.id = 1
    ∧ (((saSolve {} instTwoFac envZero 0).assignments.map
        (·.activity_id)).count activityA1.id = 1)
    ∧ (((ortoolsSolve instTwoFac cpRespTwo).assignments.map
        (·.activity_id)).count activityA1.id = 1) :=
  ⟨c2_amended.1 gaParamsTiny instTwoFac envZero _ activityA1 (by decide)
    (by decide) (by decide) rfl (by decide),
   c2_amended.2.1 {} instTwoFac envZero 0 activityA1 (by decide) (by decide)
    (by decide),
   c2_amended.2.2 instTwoFac cpRespTwo activityA1 (by decide) (by decide)
    (Or.inl rfl) cpValTwo_sat (by decide)⟩

/-! ## Claim C3: eligibility -/

/-- **C3** — Every assignment the genetic, simulated-annealing, or
OR-Tools solver emits pairs a faculty member with an activity the
qualification matrix allows; and the three GA gene producers
(initialization, crossover, mutation) always keep every gene an index
into its activity's qualified-faculty options list. -/
theorem c3_eligibility :
    (∀ (p : GAParams) (inst : ProblemInstance) (env : PyEnv)
        (r : OptimizationResult),
      (inst.faculty.map (·.id)).Nodup →
      firstUncoverable inst = none →
      1 ≤ p.population_size →
      gaSolve p inst env = some r →
      ∀ asg ∈ r.assignments,
        inst.qualification_matrix asg.faculty_id asg.activity_id = true)
    ∧ (∀ (sp : SAParams) (inst : ProblemInstance) (env : PyEnv) (n : ℕ),
      (inst.faculty.map (·.id)).Nodup →
      firstUncoverable inst = none →
      ∀ asg ∈ (saSolve sp inst env n).assignments,
        inst.qualification_matrix asg.faculty_id asg.activity_id = true)
    ∧ (∀ (inst : ProblemInstance) (resp : CpResponse),
      ∀ asg ∈ (ortoolsSolve inst resp).assignments,
        inst.qualification_matrix asg.faculty_id asg.activity_id = true)
    ∧ (∀ (env : PyEnv) (optionsList : List (List ℕ)) (k : ℕ),
      (∀ opts ∈ optionsList, opts ≠ []) →
      ValidChrom optionsList (initChrom env optionsList k).1)
    ∧ (∀ (env : PyEnv) (optionsList : List (List ℕ)) (p1 p2 : List ℕ) (k : ℕ),
      ValidChrom optionsList p1 → ValidChrom optionsList p2 →
      ValidChrom optionsList (crossoverChrom env p1 p2 k).1)
    ∧ (∀ (env : PyEnv) (optionsList : List (List ℕ)) (c : List ℕ) (k : ℕ),
      ValidChrom optionsList c → (∀ opts ∈ optionsList, opts ≠ []) →
      ValidChrom optionsList (mutateChrom env c optionsList k).1) := by
  refine ⟨?_, ?_, ?_, ?_, ?_, ?_⟩
  · intro p inst env r hndf hfu hps hrun asg hmem
    obtain ⟨b, obj, hvb, hr⟩ := gaSolve_some_valid hfu hps hrun
    rw [hr] at hmem
    exact finalize_eligibility hndf hvb _ _ asg hmem
  · intro sp inst env n hndf hfu asg hmem
    obtain ⟨b, obj, hvb, heq⟩ := saSolve_eq_finalize sp inst env n hfu
    rw [heq] at hmem
    exact finalize_eligibility hndf hvb _ _ asg hmem
  · intro inst resp asg hmem
    unfold ortoolsSolve at hmem
    by_cases hstat : resp.status = .OPTIMAL ∨ resp.status = .FEASIBLE
    · rw [if_pos hstat] at hmem
      dsimp only at hmem
      rw [ortoolsExtract_fst] at hmem
      rw [List.mem_flatMap] at hmem
      obtain ⟨f, hf, hmem2⟩ := hmem
      rw [List.mem_map] at hmem2
      obtain ⟨a, ha2, rfl⟩ := hmem2
      rw [List.mem_filter] at ha2
      obtain ⟨ha, hcond⟩ := ha2
      have hkey : hasXKey inst f.id a.id = true :=
        ((Bool.and_eq_true _ _).mp hcond).1
      dsimp only
      rw [← hasXKey_eq_matrix inst hf ha]
      exact hkey
    · rw [if_neg hstat] at hmem
      dsimp only at hmem
      cases hmem
  · intro env optionsList k hne
    exact initChrom_valid env hne k
  · intro env optionsList p1 p2 k h1 h2
    exact crossover_valid env h1 h2 k
  · intro env optionsList c k hc hne
    exact mutate_valid env hc hne k

/-- **C3, witness** — the eligibility theorem at concrete runs of all
three solvers and the three gene producers. -/
theorem c3_eligibility_witness :
    instTwoFac.qualification_matrix (1 : ℕ) "A1" = true
    ∧ ValidChrom [[5]] (initChrom envZero [[5]] 0).1
    ∧ ValidChrom [[5]] (crossoverChrom envZero [5] [5] 0).1
    ∧ ValidChrom [[5]] (mutateChrom envZero [5] [[5]] 0).1 := by
  have hv : ValidChrom [[5]] [5] := by
    refine ⟨rfl, ?_⟩
    intro i hi
    simp only [List.length_singleton] at hi
    have h0 := Nat.lt_one_iff.mp hi
    subst h0
    decide
  refine ⟨?_, ?_, ?_, ?_⟩
  · exact c3_eligibility.1 gaParamsTiny instTwoFac envZero
      (finalizeResult instTwoFac
        (initChrom envZero (activityOptions instTwoFac) 0).1
        (some (calculateFitness
          (initChrom envZero (activityOptions instTwoFac) 0).1
          instTwoFac (facultyIds instTwoFac)))
        "Genetic Algorithm")
      (by decide) (by decide) (by decide) rfl
      { faculty_id := 1, activity_id := "A1", preference_score := 0 }
      (by decide)
  · exact c3_eligibility.2.2.2.1 envZero [[5]] 0 (by decide)
  · exact c3_eligibility.2.2.2.2.1 envZero [[5]] [5] [5] 0 hv hv
  · exact c3_eligibility.2.2.2.2.2 envZero [[5]] [5] 0 hv (by decide)

/-! ## Claim C7: capacity infeasibility -/

def facultyOver : Faculty :=
  { id := 1, name := "O", rank := .TEACHER, target_load := 1,
    max_load := 1, preferences := fun _ => 0, qualified_courses := [],
    weight := 1 }

/-- One faculty member with capacity 1 hour facing a 20-hour activity:
total demand exceeds total capacity. -/
def instOver : ProblemInstance :=
  { faculty := [facultyOver], activities := [activityA1],
    qualification_matrix := fun fid aid => decide (fid = 1 ∧ aid = "A1"),
    name := "overload" }

/-- **C7** — On every instance whose total activity hours exceed the
total faculty capacity (and in which every activity has at least one
qualified faculty member), any result the genetic solver returns, and
the simulated-annealing solver's result, report
`solver_status = "COMPLETED"` with `is_feasible = false`. -/
theorem c7_capacity_infeasible :
    (∀ (p : GAParams) (inst : ProblemInstance) (env : PyEnv)
        (r : OptimizationResult),
      (inst.faculty.map (·.id)).Nodup →
      firstUncoverable inst = none →
      1 ≤ p.population_size →
      (inst.activities.map (·.hours)).sum
        > (inst.faculty.map (·.max_load)).sum →
      gaSolve p inst env = some r →
      r.solver_status = "COMPLETED" ∧ r.is_feasible = false)
    ∧ (∀ (sp : SAParams) (inst : ProblemInstance) (env : PyEnv) (n : ℕ),
      (inst.faculty.map (·.id)).Nodup →
      firstUncoverable inst = none →
      (inst.activities.map (·.hours)).sum
        > (inst.faculty.map (·.max_load)).sum →
      (saSolve sp inst env n).solver_status = "COMPLETED"
        ∧ (saSolve sp inst env n).is_feasible = false) := by
  constructor
  · intro p inst env r hndf hfu hps hover hrun
    obtain ⟨b, obj, hvb, hr⟩ := gaSolve_some_valid hfu hps hrun
    rw [hr]
    exact ⟨rfl, finalize_infeasible_of_overload hndf hvb _ _ hover⟩
  · intro sp inst env n hndf hfu hover
    obtain ⟨b, obj, hvb, heq⟩ := saSolve_eq_finalize sp inst env n hfu
    rw [heq]
    exact ⟨rfl, finalize_infeasible_of_overload hndf hvb _ _ hover⟩

/-- **C7, witness** — the capacity theorem at concrete GA and SA runs
on the overloaded instance `instOver`. -/
theorem c7_capacity_infeasible_witness :
    ((finalizeResult instOver
        (initChrom envZero (activityOptions instOver) 0).1
        (some (calculateFitness
          (initChrom envZero (activityOptions instOver) 0).1
          instOver (facultyIds instOver)))
        "Genetic Algorithm").solver_status = "COMPLETED"
      ∧ (finalizeResult instOver
        (initChrom envZero (activityOptions instOver) 0).1
        (some (calculateFitness
          (initChrom envZero (activityOptions instOver) 0).1
          instOver (facultyIds instOver)))
        "Genetic Algorithm").is_feasible = false)
    ∧ ((saSolve {} instOver envZero 0).solver_status = "COMPLETED"
      ∧ (saSolve {} instOver envZero 0).is_feasible = false) :=
  ⟨c7_capacity_infeasible.1 gaParamsTiny instOver envZero _ (by decide)
    (by decide) (by decide)
    (by norm_num [instOver, facultyOver, activityA1]) rfl,
   c7_capacity_infeasible.2 {} instOver envZero 0 (by decide) (by decide)
    (by norm_num [instOver, facultyOver, activityA1])⟩
